import Mathlib

/-!
# Formal model of the mediacache disk-backed HTTP caching proxy

A shallow embedding of the cache core of the `mediacache` repository:
the on-disk cache store (content file + `.meta` sidecar), the key hashing
(`hashUrl`, SHA-256 + URL-safe base64), existence checking (`checkExists`),
the fetch/populate pipeline (`fetchFile`), HTTP response synthesis
(`serveFile`, `parseRangeHeader`), the request handler (`handleCache`) and
the background janitor (`cleanCache`).

Modelling conventions:
* Machine integers (`int64`, `int`) are modelled as `Int`; no arithmetic in the
  modelled code paths can overflow 64 bits (checked per path), so `Int` is faithful.
* `time.Time` values and `float64` hour counts are modelled on a rational
  timeline measured in hours; the zero `time.Time` is `0` (`IsZero` = `= 0`).
  Go computes durations in `float64` via `time.Since(..).Hours()`; `ℚ` models
  the same arithmetic exactly.
* Byte strings are `List Nat` (each element a byte value).
* The file system is a pair of association lists (content files and `.meta`
  sidecars keyed by file name); `os.Stat` succeeding is membership,
  `os.Remove` is erasure, writes are insertion.  File mtimes are recorded.
* Fallible calls return `Option`/`Except`; upstream HTTP traffic and
  injectable I/O faults are supplied by explicit environment records.
-/

namespace Mediacache

/-- Bytes of a cached file / HTTP body: a list of byte values. -/
abbrev Bytes := List Nat

/-- The metadata record persisted in the `.meta` sidecar (struct `fileMeta`).
`LastModified` and `Retrieved` are instants on the rational timeline.  -/
structure fileMeta where
  Source : String
  Status : Int
  ContentType : String
  LastModified : Rat
  Retrieved : Rat
  ETag : String
  Size : Int
deriving DecidableEq, Repr

/-- A content file on disk: its bytes and its modification time. -/
structure ContentFile where
  data : Bytes
  mtime : Rat
deriving DecidableEq, Repr

/-- A metadata sidecar on disk: the decoded record and the file's mtime
(the mtime is the janitor's "last used" signal). JSON encode/decode of
`fileMeta` is a faithful round-trip, so the sidecar stores the record itself. -/
structure MetaFile where
  record : fileMeta
  mtime : Rat
deriving DecidableEq, Repr

/-- The cache directory: content files and `.meta` sidecars, keyed by the
on-disk file name (for a name `n` the sidecar is `n ++ ".meta"`; the two
association lists model the two name shapes). -/
structure FS where
  content : List (String × ContentFile)
  meta : List (String × MetaFile)
deriving DecidableEq, Repr

/-- Association-list lookup (models `os.Stat` / `os.Open` / `os.ReadFile`). -/
def lookupF {α : Type} : List (String × α) → String → Option α
  | [], _ => none
  | p :: rest, k => if p.1 = k then some p.2 else lookupF rest k

/-- Association-list erasure (models `os.Remove`; removing a missing file is a no-op). -/
def eraseF {α : Type} : List (String × α) → String → List (String × α)
  | [], _ => []
  | p :: rest, k => if p.1 = k then eraseF rest k else p :: eraseF rest k

/-- Association-list insertion/overwrite (models `os.Create`+write / `os.WriteFile`). -/
def insertF {α : Type} (l : List (String × α)) (k : String) (v : α) : List (String × α) :=
  (k, v) :: eraseF l k

/-- Stat of the content file for on-disk name `n`. -/
def FS.statContent (fs : FS) (n : String) : Option ContentFile := lookupF fs.content n

/-- Stat of the `.meta` sidecar for on-disk name `n`. -/
def FS.statMeta (fs : FS) (n : String) : Option MetaFile := lookupF fs.meta n

/-- `os.Remove` of the content file. -/
def FS.removeContent (fs : FS) (n : String) : FS :=
  { fs with content := eraseF fs.content n }

/-- `os.Remove` of the sidecar. -/
def FS.removeMeta (fs : FS) (n : String) : FS :=
  { fs with meta := eraseF fs.meta n }

/-- Write (create/truncate) the content file. -/
def FS.writeContent (fs : FS) (n : String) (v : ContentFile) : FS :=
  { fs with content := insertF fs.content n v }

/-- Write the sidecar (`os.WriteFile`). -/
def FS.writeMeta (fs : FS) (n : String) (v : MetaFile) : FS :=
  { fs with meta := insertF fs.meta n v }

/-! ## `parseRangeHeader` and the Go library functions it uses -/

/-- A parsed byte range (struct `rangeRequest`); Go's field `end` is `stop` here. -/
structure rangeRequest where
  start : Int
  stop : Int
  length : Int
deriving DecidableEq, Repr

/-- Decimal digit value of a character, if it is a digit. -/
def digitVal (c : Char) : Option Nat :=
  if '0' ≤ c ∧ c ≤ '9' then some (c.toNat - '0'.toNat) else none

/-- Accumulate a decimal number over a list of characters; `none` on any non-digit. -/
def parseDigitsAux : List Char → Nat → Option Nat
  | [], acc => some acc
  | c :: cs, acc =>
    match digitVal c with
    | some d => parseDigitsAux cs (acc * 10 + d)
    | none => none

/-- Go `strconv.ParseInt(s, 10, 64)` on a rune list: optional sign, decimal
digits, 64-bit range check (Go reports out-of-range values through a non-nil
error, which the caller treats as failure, so they are `none` here). -/
def parseInt64 (s : List Char) : Option Int :=
  match s with
  | [] => none
  | '+' :: rest =>
    if rest = [] then none else
      (parseDigitsAux rest 0).bind fun n =>
        if n ≤ 9223372036854775807 then some (n : Int) else none
  | '-' :: rest =>
    if rest = [] then none else
      (parseDigitsAux rest 0).bind fun n =>
        if n ≤ 9223372036854775808 then some (-(n : Int)) else none
  | _ =>
    (parseDigitsAux s 0).bind fun n =>
      if n ≤ 9223372036854775807 then some (n : Int) else none

/-- Go `strings.Split(s, "-")` on a rune list: split at every dash, keeping
empty fields ( `Split("", "-") = [""]`, `Split("-", "-") = ["", ""]` ). -/
def splitOnDash : List Char → List Char → List (List Char)
  | [], acc => [acc.reverse]
  | c :: cs, acc =>
    if c = '-' then acc.reverse :: splitOnDash cs []
    else splitOnDash cs (c :: acc)

/-- Go `strings.TrimPrefix` on rune lists (for an ASCII prefix a rune prefix
is exactly a byte prefix). -/
def trimPrefixGo (s pre : List Char) : List Char :=
  if pre.isPrefixOf s then s.drop pre.length else s

/-- The start-position normalisation statement of `parseRangeHeader`:
`if start < 0 { start = fileSize + start; if start < 0 { return nil, error } }`. -/
def normStart (fileSize start0 : Int) : Except String Int :=
  if start0 < 0 then
    if fileSize + start0 < 0 then .error "invalid range: start position out of bounds"
    else .ok (fileSize + start0)
  else .ok start0

/-- The validation tail of `parseRangeHeader` after both bounds are parsed:
start normalisation, end clamping (`if end >= fileSize { end = fileSize - 1 }`),
the `start > end` check, and construction of the `rangeRequest`. -/
def buildRange (start1 end1 : Int) : Except String (Option rangeRequest) :=
  if start1 > end1 then .error "invalid range: start > end"
  else .ok (some { start := start1, stop := end1, length := end1 - start1 + 1 })

/-- See `buildRange` for the final `start > end` check and range construction. -/
def validateRange (fileSize start0 end0 : Int) : Except String (Option rangeRequest) :=
  match normStart fileSize start0 with
  | .error e => .error e
  | .ok start1 => buildRange start1 (if end0 ≥ fileSize then fileSize - 1 else end0)

/-- `parseRangeHeader(rangeHeader, fileSize)` from the range-supporting
variant: returns `.ok none` for an absent header, `.error msg` exactly where
the Go function returns a non-nil error (with the same message), and
`.ok (some r)` for a parsed range.  The header is processed as its rune list
(`String.data`). -/
def parseRangeHeader (rangeHeader : String) (fileSize : Int) :
    Except String (Option rangeRequest) :=
  if rangeHeader.data = [] then .ok none else
  let rangeStr := trimPrefixGo rangeHeader.data "bytes=".data
  match splitOnDash rangeStr [] with
  | [p0, p1] =>
    match (if p0 = [] then some 0 else parseInt64 p0) with
    | none => .error "invalid start value"
    | some start0 =>
      match (if p1 = [] then some (fileSize - 1) else parseInt64 p1) with
      | none => .error "invalid end value"
      | some end0 => validateRange fileSize start0 end0
  | _ => .error "invalid range format"

/-! ## `hashUrl`: SHA-256 (Go `crypto/sha256`) and URL-safe base64

The file name of a cache entry in the query-keyed variant is
`hashUrl(key)`: the SHA-256 digest of the key's UTF-8 bytes, URL-safe
base64-encoded, with `=` padding stripped.  SHA-256 is implemented here
bit-faithfully over `Nat` with explicit reduction mod `2^32`. -/

/-- `2^32`, the word modulus of SHA-256 arithmetic. -/
def M32 : Nat := 4294967296

/-- Rotate a 32-bit word right by `n` bits (`rotr` in FIPS 180-4). -/
def rotr32 (x n : Nat) : Nat := ((x >>> n) ||| (x <<< (32 - n))) % M32

/-- SHA-256 small sigma-0: `rotr 7 xor rotr 18 xor shr 3`. -/
def ssig0 (x : Nat) : Nat := rotr32 x 7 ^^^ rotr32 x 18 ^^^ (x >>> 3)

/-- SHA-256 small sigma-1: `rotr 17 xor rotr 19 xor shr 10`. -/
def ssig1 (x : Nat) : Nat := rotr32 x 17 ^^^ rotr32 x 19 ^^^ (x >>> 10)

/-- SHA-256 big sigma-0. -/
def bsig0 (x : Nat) : Nat := rotr32 x 2 ^^^ rotr32 x 13 ^^^ rotr32 x 22

/-- SHA-256 big sigma-1. -/
def bsig1 (x : Nat) : Nat := rotr32 x 6 ^^^ rotr32 x 11 ^^^ rotr32 x 25

/-- SHA-256 choice function. -/
def chFn (e f g : Nat) : Nat := (e &&& f) ^^^ ((e ^^^ 4294967295) &&& g)

/-- SHA-256 majority function. -/
def majFn (a b c : Nat) : Nat := (a &&& b) ^^^ (a &&& c) ^^^ (b &&& c)

/-- The 64 SHA-256 round constants. -/
def sha256K : List Nat :=
  [1116352408, 1899447441, 3049323471, 3921009573, 961987163,
   1508970993, 2453635748, 2870763221, 3624381080, 310598401,
   607225278, 1426881987, 1925078388, 2162078206, 2614888103,
   3248222580, 3835390401, 4022224774, 264347078, 604807628,
   770255983, 1249150122, 1555081692, 1996064986, 2554220882,
   2821834349, 2952996808, 3210313671, 3336571891, 3584528711,
   113926993, 338241895, 666307205, 773529912, 1294757372,
   1396182291, 1695183700, 1986661051, 2177026350, 2456956037,
   2730485921, 2820302411, 3259730800, 3345764771, 3516065817,
   3600352804, 4094571909, 275423344, 430227734, 506948616,
   659060556, 883997877, 958139571, 1322822218, 1537002063,
   1747873779, 1955562222, 2024104815, 2227730452, 2361852424,
   2428436474, 2756734187, 3204031479, 3329325298]

/-- The SHA-256 initial hash value. -/
def sha256H0 : List Nat :=
  [1779033703, 3144134277, 1013904242, 2773480762, 1359893119,
   2600822924, 528734635, 1541459225]

/-- Big-endian 32-bit words from a byte list. -/
def toWords32 : List Nat → List Nat
  | b0 :: b1 :: b2 :: b3 :: rest => (((b0 * 256 + b1) * 256 + b2) * 256 + b3) :: toWords32 rest
  | _ => []

/-- Extend the (reversed) message schedule by `n` further words. -/
def extendW : Nat → List Nat → List Nat
  | 0, ws => ws
  | n + 1, ws =>
    let w2 := ws.getD 1 0
    let w7 := ws.getD 6 0
    let w15 := ws.getD 14 0
    let w16 := ws.getD 15 0
    extendW n (((ssig1 w2 + w7 + ssig0 w15 + w16) % M32) :: ws)

/-- One SHA-256 compression round; the state is the 8-word list `[a..h]`. -/
def sha256Round (st : List Nat) (kw : Nat × Nat) : List Nat :=
  match st with
  | [a, b, c, d, e, f, g, h] =>
    let t1 := (h + bsig1 e + chFn e f g + kw.1 + kw.2) % M32
    let t2 := (bsig0 a + majFn a b c) % M32
    [(t1 + t2) % M32, a, b, c, (d + t1) % M32, e, f, g]
  | st => st

/-- Compress one 64-byte block into the hash state. -/
def sha256Block (st : List Nat) (block : List Nat) : List Nat :=
  let w16 := toWords32 block
  let w := (extendW 48 w16.reverse).reverse
  let st1 := (sha256K.zip w |>.foldl (fun s kw => sha256Round s kw) st)
  (st.zip st1).map (fun p => (p.1 + p.2) % M32)

/-- 8-byte big-endian encoding of a (bit-length) number. -/
def be64 (n : Nat) : List Nat :=
  [(n >>> 56) % 256, (n >>> 48) % 256, (n >>> 40) % 256, (n >>> 32) % 256,
   (n >>> 24) % 256, (n >>> 16) % 256, (n >>> 8) % 256, n % 256]

/-- SHA-256 message padding: `0x80`, zeros to 56 mod 64, 8-byte bit length. -/
def padMsg (msg : List Nat) : List Nat :=
  msg ++ 0x80 :: List.replicate ((119 - msg.length % 64) % 64) 0 ++ be64 (msg.length * 8)

/-- Split a list into 64-byte chunks (fuelled structural recursion). -/
def chunks64Aux : Nat → List Nat → List (List Nat)
  | 0, _ => []
  | _, [] => []
  | fuel + 1, l => l.take 64 :: chunks64Aux fuel (l.drop 64)

/-- SHA-256 digest (32 bytes) of a byte list. -/
def sha256 (msg : List Nat) : List Nat :=
  let padded := padMsg msg
  let st := (chunks64Aux padded.length padded).foldl sha256Block sha256H0
  st.foldr (fun w acc => (w >>> 24) % 256 :: (w >>> 16) % 256 :: (w >>> 8) % 256 :: w % 256 :: acc) []

/-- The URL-safe base64 alphabet (RFC 4648), as used by Go `base64.URLEncoding`. -/
def b64Alphabet : List Char :=
  "ABCDEFGHIJKLMNOPQRSTUVWXYZabcdefghijklmnopqrstuvwxyz0123456789-_".data

/-- Base64 encode with `=` padding (Go `base64.URLEncoding.EncodeToString`). -/
def b64Encode : List Nat → List Char
  | b0 :: b1 :: b2 :: rest =>
    b64Alphabet.getD (b0 >>> 2) 'A' ::
    b64Alphabet.getD (((b0 &&& 3) <<< 4) ||| (b1 >>> 4)) 'A' ::
    b64Alphabet.getD (((b1 &&& 15) <<< 2) ||| (b2 >>> 6)) 'A' ::
    b64Alphabet.getD (b2 &&& 63) 'A' :: b64Encode rest
  | [b0, b1] =>
    [b64Alphabet.getD (b0 >>> 2) 'A',
     b64Alphabet.getD (((b0 &&& 3) <<< 4) ||| (b1 >>> 4)) 'A',
     b64Alphabet.getD ((b1 &&& 15) <<< 2) 'A', '=']
  | [b0] =>
    [b64Alphabet.getD (b0 >>> 2) 'A',
     b64Alphabet.getD ((b0 &&& 3) <<< 4) 'A', '=', '=']
  | [] => []

/-- The UTF-8 bytes of one character (Go strings are UTF-8; `[]byte(url)`). -/
def utf8EncodeChar (c : Char) : List Nat :=
  let n := c.toNat
  if n < 0x80 then [n]
  else if n < 0x800 then [0xC0 ||| (n >>> 6), 0x80 ||| (n &&& 0x3F)]
  else if n < 0x10000 then
    [0xE0 ||| (n >>> 12), 0x80 ||| ((n >>> 6) &&& 0x3F), 0x80 ||| (n &&& 0x3F)]
  else
    [0xF0 ||| (n >>> 18), 0x80 ||| ((n >>> 12) &&& 0x3F),
     0x80 ||| ((n >>> 6) &&& 0x3F), 0x80 ||| (n &&& 0x3F)]

/-- `hashUrl(url)`: SHA-256 of the key, URL-safe base64, `=` stripped
(`strings.ReplaceAll(encoded, "=", "")`). -/
def hashUrl (url : String) : String :=
  String.mk ((b64Encode (sha256 ((url.data.map utf8EncodeChar).flatten))).filter (fun c => c ≠ '='))

/-! ## `checkExists`, `joinUrl` and `fetchFile` (query-keyed variant) -/

/-- Go `strings.TrimSuffix` on rune lists. -/
def trimSuffixGo (s suf : List Char) : List Char :=
  if suf.isSuffixOf s then s.take (s.length - suf.length) else s

/-- `joinUrl(base, path)`: `strings.TrimSuffix(base, "/") + "/" + strings.TrimPrefix(path, "/")`. -/
def joinUrl (base path : String) : String :=
  String.mk (trimSuffixGo base.data ['/'] ++ '/' :: trimPrefixGo path.data ['/'])

/-- `checkExists(origFilename)`: stat the `.meta` sidecar of `hashUrl(origFilename)`,
then, only if that succeeded, stat the content file. -/
def checkExists (fs : FS) (origFilename : String) : Bool :=
  let filename := hashUrl origFilename
  match fs.statMeta filename with
  | none => false
  | some _ => (fs.statContent filename).isSome

/-- An upstream HTTP response as observed by `fetchFile`: status, the three
headers it reads, `ContentLength` (`-1` when the header is absent, following
Go), and the body bytes. -/
structure Response where
  StatusCode : Int
  LastModifiedHdr : String
  ContentTypeHdr : String
  ETagHdr : String
  ContentLength : Int
  Body : Bytes
deriving DecidableEq, Repr

/-- Result of `httpClient.Get(url)`: a transport error or a response. -/
inductive GetResult where
  | err (msg : String)
  | resp (r : Response)
deriving DecidableEq, Repr

/-- Errors returned by the modelled functions (Go `error` values). -/
inductive GoErr where
  | transport (msg : String)  -- httpClient.Get failure
  | createErr                 -- os.Create failure
  | copyErr                   -- io.Copy failure
  | timeParseErr              -- time.Parse(http.TimeFormat, ..) failure
  | writeFileErr              -- os.WriteFile failure
  | readFileErr               -- os.ReadFile / os.Open: file missing
  | cacheExpired              -- ErrCacheExpired ("cache expired")
  | rangeErr (msg : String)   -- parseRangeHeader error
deriving DecidableEq, Repr

/-- The environment of one `fetchFile` call: the configured upstream list,
the network (`httpClient.Get`), the HTTP-date parser, the current time, and
injectable local I/O faults (`os.Create`, `io.Copy` after `k` bytes,
`os.WriteFile`). -/
structure FetchEnv where
  upstreams : List String
  get : String → GetResult
  parseHTTPTime : String → Option Rat
  now : Rat
  createFails : Bool
  copyFails : Option Nat
  writeMetaFails : Bool

/-- The upstream loop of `fetchFile`: try each origin in order, breaking at
the first response with no transport error and status 200; the loop state is
the current values of the Go variables `(url, resp, err)`. -/
def fetchLoop (get : String → GetResult) (origFilename : String) :
    List String → String × Option Response × Option GoErr →
    String × Option Response × Option GoErr
  | [], st => st
  | u :: rest, _ =>
    let url := joinUrl u origFilename
    match get url with
    | .err e => fetchLoop get origFilename rest (url, none, some (.transport e))
    | .resp r =>
      if r.StatusCode = 200 then (url, some r, none)
      else fetchLoop get origFilename rest (url, some r, none)

/-- The body of `fetchFile` before its deferred cleanup: upstream loop,
content write, `Last-Modified` parse, metadata write.  `.error ()` is the
nil-pointer dereference `resp.Body.Close()` would hit when the loop ends with
both `resp == nil` and `err == nil` (possible only for an empty origin list).
`json.Marshal` of `fileMeta` cannot fail and is the identity embedding. -/
def fetchFileCore (env : FetchEnv) (fs : FS) (origFilename : String) :
    Except Unit (FS × Int × Option GoErr) :=
  let filename := hashUrl origFilename
  match fetchLoop env.get origFilename env.upstreams ("", none, none) with
  | (_, _, some e) => .ok (fs, 0, some e)
  | (_, none, none) => .error ()
  | (url, some resp, none) =>
    if env.createFails then .ok (fs, 0, some .createErr)
    else
      match env.copyFails with
      | some k => .ok (fs.writeContent filename ⟨resp.Body.take k, env.now⟩, 0, some .copyErr)
      | none =>
        let fs1 := fs.writeContent filename ⟨resp.Body, env.now⟩
        let bytes : Int := resp.Body.length
        match (if resp.LastModifiedHdr = "" then some 0 else env.parseHTTPTime resp.LastModifiedHdr) with
        | none => .ok (fs1, bytes, some .timeParseErr)
        | some lastModified =>
          let size := if resp.ContentLength ≤ 0 then bytes else resp.ContentLength
          let meta : fileMeta :=
            { Source := url
              Status := resp.StatusCode
              ContentType := resp.ContentTypeHdr
              LastModified := lastModified
              Retrieved := env.now
              ETag := resp.ETagHdr
              Size := size }
          if env.writeMetaFails then .ok (fs1, bytes, some .writeFileErr)
          else .ok (fs1.writeMeta filename ⟨meta, env.now⟩, bytes, none)

/-- `fetchFile(origFilename)`: `fetchFileCore` plus the deferred cleanup,
which removes both the `.meta` sidecar and the content file whenever the
named return `err` is non-nil. -/
def fetchFile (env : FetchEnv) (fs : FS) (origFilename : String) :
    Except Unit (FS × Int × Option GoErr) :=
  match fetchFileCore env fs origFilename with
  | .error u => .error u
  | .ok (fs1, n, some e) =>
    let filename := hashUrl origFilename
    .ok ((fs1.removeMeta filename).removeContent filename, n, some e)
  | .ok (fs1, n, none) => .ok (fs1, n, none)

/-! ## The `http.ResponseWriter` model and `serveFile` (range-supporting variant) -/

/-- UTF-8 bytes of a string (Go `[]byte(s)`). -/
def strBytes (s : String) : Bytes := (s.data.map utf8EncodeChar).flatten

/-- `net/http` response writer: `headers` is the mutable header map
(`w.Header()`); the first `WriteHeader`/`Write` freezes it into
`sentHeaders` and fixes the status; later `Header().Set` calls no longer
affect what was sent. -/
structure RespWriter where
  headers : List (String × String)
  status : Option Int
  sentHeaders : List (String × String)
  body : Bytes
deriving DecidableEq, Repr

/-- The writer before anything is written. -/
def RespWriter.empty : RespWriter := ⟨[], none, [], []⟩

/-- `w.Header().Set(k, v)`. -/
def RespWriter.setHeader (w : RespWriter) (k v : String) : RespWriter :=
  { w with headers := insertF w.headers k v }

/-- `w.WriteHeader(code)`: only the first status write takes effect, and it
snapshots the headers that get sent. -/
def RespWriter.writeHeader (w : RespWriter) (code : Int) : RespWriter :=
  match w.status with
  | some _ => w
  | none => { w with status := some code, sentHeaders := w.headers }

/-- `w.Write(b)`: an implicit `WriteHeader(200)` on first write, then append. -/
def RespWriter.write (w : RespWriter) (b : Bytes) : RespWriter :=
  let w1 := w.writeHeader 200
  { w1 with body := w1.body ++ b }

/-- The status actually sent: Go sends 200 if the handler never wrote one. -/
def RespWriter.finalStatus (w : RespWriter) : Int := w.status.getD 200

/-- The header value of the sent response, `none` if not sent. -/
def RespWriter.sent (w : RespWriter) (k : String) : Option String :=
  lookupF w.sentHeaders k

/-- `sendPlain(w, message)`: set `Content-Type`/`Content-Length`, write the
message, return the byte count (`len(message)` in Go is the byte length). -/
def sendPlain (w : RespWriter) (message : String) : RespWriter × Int :=
  let b := strBytes message
  let w1 := (w.setHeader "Content-Type" "text/plain").setHeader
    "Content-Length" (toString b.length)
  ((w1.write b), (b.length : Int))

/-- `http.Error(w, msg, code)`: plain-text content type, status, `msg`
followed by a newline. -/
def httpError (w : RespWriter) (msg : String) (code : Int) : RespWriter :=
  let w1 := (w.setHeader "Content-Type" "text/plain; charset=utf-8").setHeader
    "X-Content-Type-Options" "nosniff"
  (w1.writeHeader code).write (strBytes (msg ++ "\n"))

/-- `SOFTWARE + " " + VERSION + "; " + result`, the `X-Cache` value of the
query-keyed build (`VERSION = "v1.0+kopper1"`). -/
def xCacheVal (result : String) : String := "MediaCache v1.0+kopper1; " ++ result

/-- Go `strings.TrimSpace`. -/
def trimSpaceGo (s : String) : String :=
  String.mk (((s.data.dropWhile Char.isWhitespace).reverse.dropWhile Char.isWhitespace).reverse)

/-- `meta.LastModified.Format(http.TimeFormat)` renders an instant as an HTTP
date; the model renders the rational instant canonically (no claim depends on
the rendered text, only on which header is set). -/
def formatHTTPTime (t : Rat) : String := toString t

/-- `Retrieved.AddDate(1, 0, 0)` (one calendar year later), modelled as 365
days of hours; only ever rendered into the `Expires` header. -/
def addOneYear (t : Rat) : Rat := t + 8760

/-- Configuration read by `serveFile`: `maxAge` (hours, `0` disables expiry)
and the canned `CACHE_REPLY_*` bodies. -/
structure ServeCfg where
  maxAge : Rat
  reply403 : String
  reply404 : String
  reply500 : String
  reply503 : String
  reply504 : String
deriving Repr

/-- The canned-reply dispatch of the non-200 branch of `serveFile`: for
403/404/500/503/504 with a configured body, `sendPlain` that body; otherwise
stream the stored content file. -/
def serveNon200 (cfg : ServeCfg) (w : RespWriter) (status : Int) (file : ContentFile) :
    RespWriter × Int :=
  if status = 403 ∧ cfg.reply403 ≠ "" then sendPlain w cfg.reply403
  else if status = 404 ∧ cfg.reply404 ≠ "" then sendPlain w cfg.reply404
  else if status = 500 ∧ cfg.reply500 ≠ "" then sendPlain w cfg.reply500
  else if status = 503 ∧ cfg.reply503 ≠ "" then sendPlain w cfg.reply503
  else if status = 504 ∧ cfg.reply504 ≠ "" then sendPlain w cfg.reply504
  else (w.write file.data, (file.data.length : Int))

/-- The 200-path tail of `serveFile` after the conditional-GET checks: parse
the `Range` header against `meta.Size`, set the response headers, and stream
either the requested slice (206) or the whole file.  `file.Seek` cannot fail
here because `parseRangeHeader` only returns non-negative starts; seeking past
EOF succeeds in Go and the subsequent copy returns 0 bytes, which the
`drop`/`take` slice reproduces. -/
def serve200 (fs : FS) (w : RespWriter) (rangeHeader : String) (meta : fileMeta)
    (file : ContentFile) (result : String) : FS × RespWriter × Int × Option GoErr :=
  match parseRangeHeader rangeHeader meta.Size with
  | .error msg =>
    let w1 := (w.setHeader "Content-Type" "text/plain").writeHeader 400
    (fs, w1.write (strBytes ("Invalid range request: " ++ msg)), 0, some (.rangeErr msg))
  | .ok rangeReq =>
    let w1 := ((((((w.setHeader "Content-Type" meta.ContentType).setHeader
      "Last-Modified" (formatHTTPTime meta.LastModified)).setHeader
      "Cache-Control" "max-age=31536000").setHeader
      "Pragma" "cache").setHeader
      "Expires" (formatHTTPTime (addOneYear meta.Retrieved))).setHeader
      "ETag" meta.ETag).setHeader "X-Cache" (xCacheVal result)
    match rangeReq with
    | some rr =>
      let w2 := ((w1.setHeader "Content-Range"
        ("bytes " ++ toString rr.start ++ "-" ++ toString rr.stop ++ "/" ++ toString meta.Size)).setHeader
        "Content-Length" (toString rr.length)).writeHeader 206
      let seg := (file.data.drop rr.start.toNat).take rr.length.toNat
      (fs, w2.write seg, (seg.length : Int), none)
    | none =>
      let w2 := w1.setHeader "Content-Length" (toString meta.Size)
      (fs, w2.write file.data, (file.data.length : Int), none)

/-- `serveFile(w, r, filename, eTags, ifModifiedSince, result)` of the
range-supporting variant: read and decode the sidecar, open the content file,
expire a too-old entry (removing both files, error `ErrCacheExpired`), replay
a stored non-200 status, answer 304 to `If-Modified-Since`/`If-None-Match`,
else serve bytes via `serve200`.  `rangeHeader` is `r.Header.Get("Range")`
(empty when absent); `ifModifiedSince = 0` is the zero `time.Time`. -/
def serveFile (cfg : ServeCfg) (now : Rat) (fs : FS) (w : RespWriter)
    (rangeHeader : String) (filename : String) (eTags : List String)
    (ifModifiedSince : Rat) (result : String) : FS × RespWriter × Int × Option GoErr :=
  match fs.statMeta filename with
  | none => (fs, w, 0, some .readFileErr)
  | some mf =>
    match fs.statContent filename with
    | none => (fs, w, 0, some .readFileErr)
    | some file =>
      let meta := mf.record
      if cfg.maxAge > 0 ∧ now - meta.Retrieved > cfg.maxAge then
        ((fs.removeMeta filename).removeContent filename, w, 0, some .cacheExpired)
      else if meta.Status ≠ 200 then
        -- `WriteHeader` runs before the `X-Cache` set, so that header is never sent here
        let w1 := (w.writeHeader meta.Status).setHeader "X-Cache" (xCacheVal result)
        let p := serveNon200 cfg w1 meta.Status file
        (fs, p.1, p.2, none)
      else if meta.LastModified ≠ 0 ∧ ifModifiedSince ≠ 0 ∧
          meta.LastModified < ifModifiedSince then
        (fs, (w.writeHeader 304).setHeader "X-Cache" (xCacheVal result), 0, none)
      else if eTags.any (fun tag => trimSpaceGo tag = mf.record.ETag) then
        (fs, (w.writeHeader 304).setHeader "X-Cache" (xCacheVal result), 0, none)
      else
        serve200 fs w rangeHeader meta file result

/-! ## `handleCache` (query-keyed variant)

The model covers the cache data flow of the handler: the cache key is
`path + "?" + query`, the HIT attempt, the existence re-check, the fetch of
`r.URL.Path` (not of the cache key), and the MISS serve.  Elided as
irrelevant to the modelled claims: per-key lock and stats bookkeeping
(concurrency), parsing of the conditional headers into `ifModifiedSince` and
`eTags` (the model takes the parsed values), and the `EPIPE` disconnect test
(client writes cannot fail in the model, so `errors.Is(err, syscall.EPIPE)`
is `false`). -/

/-- Which exit the handler took (for stating claims; derived from the code
path, not extra state). -/
inductive Outcome where
  | root          -- served the banner
  | badPath       -- 400 invalid path
  | hit           -- HIT serve succeeded
  | fetchFailed   -- fetchFile errored: 500 "error fetching file"
  | serveFailed   -- MISS serve errored: 500 "error serving file"
  | missServed    -- MISS serve succeeded
deriving DecidableEq, Repr

/-- Go `strings.Contains`. -/
def containsSubstr : List Char → List Char → Bool
  | s, sub =>
    match s with
    | [] => sub.isEmpty
    | _ :: rest => sub.isPrefixOf s || containsSubstr rest sub

/-- The `GET /` banner body. -/
def rootBanner : String := "MediaCache v1.0+kopper1\nhttps://github.com/ShittyKopper/mediacache\n"

/-- The tail of `handleCache` after the HIT attempt: re-check existence,
fetch `r.URL.Path` on absence, then serve with result `"MISS"`. -/
def handleCacheMiss (cfg : ServeCfg) (env : FetchEnv) (fs : FS) (w : RespWriter)
    (path filename rangeHeader : String) (eTags : List String)
    (ifModifiedSince : Rat) : Except Unit (FS × RespWriter × Outcome) :=
  let serveMiss : FS → Except Unit (FS × RespWriter × Outcome) := fun fs1 =>
    match serveFile cfg env.now fs1 w rangeHeader filename eTags ifModifiedSince "MISS" with
    | (fs2, w2, _, some _) => .ok (fs2, httpError w2 "error serving file" 500, .serveFailed)
    | (fs2, w2, _, none) => .ok (fs2, w2, .missServed)
  if ¬checkExists fs filename then
    match fetchFile env fs path with
    | .error u => .error u
    | .ok (fs1, _, some _) => .ok (fs1, httpError w "error fetching file" 500, .fetchFailed)
    | .ok (fs1, _, none) => serveMiss fs1
  else serveMiss fs

/-- `handleCache(w, r)`: cache key `path + "?" + query`; HIT attempt when the
(hashed) pair exists; on a HIT error that is not a disconnect, fall through to
`handleCacheMiss`. -/
def handleCache (cfg : ServeCfg) (env : FetchEnv) (fs : FS)
    (path query rangeHeader : String) (eTags : List String)
    (ifModifiedSince : Rat) : Except Unit (FS × RespWriter × Outcome) :=
  let filename := path ++ "?" ++ query
  if filename = "/" then
    .ok (fs, RespWriter.empty.write (strBytes rootBanner), .root)
  else if containsSubstr filename.data "..".data ∨ containsSubstr filename.data "~".data then
    .ok (fs, httpError RespWriter.empty "invalid path" 400, .badPath)
  else if checkExists fs filename then
    match serveFile cfg env.now fs RespWriter.empty rangeHeader filename eTags
        ifModifiedSince "HIT" with
    | (fs1, w1, _, none) => .ok (fs1, w1, .hit)
    | (fs1, w1, _, some _) =>
      handleCacheMiss cfg env fs1 w1 path filename rangeHeader eTags ifModifiedSince
  else
    handleCacheMiss cfg env fs RespWriter.empty path filename rangeHeader eTags
      ifModifiedSince

/-! ## `serveFile` of the plain-key variant (`main.go`)

This variant has no expiry check and no range support, but touches the
sidecar's mtime (`os.Chtimes(metaFile, now, now)`, error discarded) on the
200 full-body path, after setting the headers and before streaming.
Its `X-Cache` software string is `"MediaCache v1.0"`. -/

namespace MainGo

/-- `serveFile(w, filename, eTags, ifModifiedSince, result)` from `main.go`. -/
def serveFile (cfg : ServeCfg) (now : Rat) (fs : FS) (w : RespWriter)
    (filename : String) (eTags : List String) (ifModifiedSince : Rat)
    (result : String) : FS × RespWriter × Int × Option GoErr :=
  match fs.statMeta filename with
  | none => (fs, w, 0, some .readFileErr)
  | some mf =>
    match fs.statContent filename with
    | none => (fs, w, 0, some .readFileErr)
    | some file =>
      let meta := mf.record
      if meta.Status ≠ 200 then
        let w1 := (w.writeHeader meta.Status).setHeader "X-Cache" ("MediaCache v1.0; " ++ result)
        let p := serveNon200 cfg w1 meta.Status file
        (fs, p.1, p.2, none)
      else if meta.LastModified ≠ 0 ∧ ifModifiedSince ≠ 0 ∧
          meta.LastModified < ifModifiedSince then
        (fs, (w.writeHeader 304).setHeader "X-Cache" ("MediaCache v1.0; " ++ result), 0, none)
      else if eTags.any (fun tag => trimSpaceGo tag = meta.ETag) then
        (fs, (w.writeHeader 304).setHeader "X-Cache" ("MediaCache v1.0; " ++ result), 0, none)
      else
        let w1 := (((((((w.setHeader "Content-Type" meta.ContentType).setHeader
          "Content-Length" (toString meta.Size)).setHeader
          "Last-Modified" (formatHTTPTime meta.LastModified)).setHeader
          "Cache-Control" "max-age=31536000").setHeader
          "Pragma" "cache").setHeader
          "Expires" (formatHTTPTime (addOneYear meta.Retrieved))).setHeader
          "ETag" meta.ETag).setHeader "X-Cache" ("MediaCache v1.0; " ++ result)
        -- os.Chtimes(metaFile, currentTime, currentTime)
        let fs1 := fs.writeMeta filename ⟨mf.record, now⟩
        (fs1, w1.write file.data, (file.data.length : Int), none)

end MainGo

/-! ## The janitor

Two clean-pass variants are modelled.  `V2.cleanCache` is the
`cleanCache` whose sidecar-stat error branch logs `metaInfo.Name()` — a
method call on the nil `fs.FileInfo` returned by the failed `os.Stat`, hence
a nil-pointer dereference panic (`main.go` lines 568–603 inline the same
code).  `V3.cleanCache` is the later variant with the fixed log call, the
max-age sweep, and the budget guard before the eviction walk.

The directory listing of `os.ReadDir` contains content files and `.meta`
sidecars; entries with the `.meta` suffix are skipped, so the scan visits
exactly the content entries, modelled in the association-list order (the
result does not depend on the visit order: removals of distinct entries
commute).  `entry.Info()` failures are injected by `infoErr`; a sidecar stat
fails exactly when the sidecar is absent. -/

/-- A Go runtime panic (terminates the process: the janitor goroutine has no
`recover`). -/
inductive PanicKind where
  | nilDeref
deriving DecidableEq, Repr

namespace V2

/-- Budgets of the earlier build: `CACHE_MAX_FILES` and `CACHE_MAX_SIZE`
(bytes, `int64`). -/
structure CleanCfg where
  maxCacheFiles : Int
  maxCacheSize : Int
  dryRun : Bool

/-- One surviving scan entry: name, `info.Size()`, retention score. -/
structure JEntry where
  name : String
  sizeBytes : Int
  score : Rat
deriving DecidableEq, Repr

/-- The scan loop of `V2.cleanCache`: skip `.meta` entries, skip entries whose
`Info()` errors, panic on a failed sidecar stat (the `metaInfo.Name()` log
argument), else score the entry and accumulate `totalSize`. -/
def survey (now : Rat) (infoErr : String → Bool) :
    List (String × ContentFile) → FS → Int → List JEntry →
    Except PanicKind (FS × Int × List JEntry)
  | [], fs, totalSize, acc => .ok (fs, totalSize, acc.reverse)
  | (name, info) :: rest, fs, totalSize, acc =>
    if (".meta".data.isSuffixOf name.data) then survey now infoErr rest fs totalSize acc
    else if infoErr name then survey now infoErr rest fs totalSize acc
    else
      match fs.statMeta name with
      | none => .error .nilDeref
      | some mi =>
        let size : Rat := (info.data.length : Rat) / 1024 / 1024
        let age := now - info.mtime
        let lastRead := now - mi.mtime
        survey now infoErr rest fs (totalSize + info.data.length)
          (⟨name, (info.data.length : Int), size * age * lastRead⟩ :: acc)

/-- The removal walk of `V2.cleanCache`: `totalCount`/`totalSize` keep
accumulating over the sorted list (note `totalSize` already holds the full
scan total, so it double-counts here, as in the source); once either limit is
reached every further entry is removed (unless `dryRun`). -/
def evictWalk (cfg : CleanCfg) : List JEntry → FS → Int → Int → FS
  | [], fs, _, _ => fs
  | f :: rest, fs, totalCount, totalSize =>
    let totalCount := totalCount + 1
    let totalSize := totalSize + f.sizeBytes
    if totalSize < cfg.maxCacheSize ∧ totalCount < cfg.maxCacheFiles then
      evictWalk cfg rest fs totalCount totalSize
    else
      let fs1 := if cfg.dryRun then fs
        else (fs.removeContent f.name).removeMeta f.name
      evictWalk cfg rest fs1 totalCount totalSize

/-- `cleanCache()` of the earlier build: scan, sort ascending by score,
remove over-budget entries.  The scan can panic (see `survey`). -/
def cleanCache (cfg : CleanCfg) (now : Rat) (infoErr : String → Bool) (fs : FS) :
    Except PanicKind FS :=
  match survey now infoErr fs.content fs 0 [] with
  | .error p => .error p
  | .ok (fs1, totalSize, files) =>
    let sorted := List.insertionSort (fun a b => a.score ≤ b.score) files
    .ok (evictWalk cfg sorted fs1 0 totalSize)

end V2

namespace V3

/-- Budgets of the query-keyed build: `CACHE_MAX_FILES`,
`CACHE_MAX_SIZE_MB` (converted to `float64` megabytes), and
`CACHE_MAX_AGE_HOURS`. -/
structure CleanCfg where
  maxCacheFiles : Int
  maxCacheSize : Rat
  maxAge : Rat
  dryRun : Bool

/-- One surviving scan entry of the later clean pass. -/
structure JEntry where
  name : String
  sizeBytes : Int
  score : Rat
  age : Rat
  size : Rat
  used : Rat
deriving DecidableEq, Repr

/-- The scan loop of `V3.cleanCache`: skip `.meta` entries and failed
`Info()` calls; delete orphans (content without sidecar) and entries older
than `maxAge` outright (honouring `dryRun`); score and accumulate the rest
(`totalSize` is in megabytes here; `totalCount` is never incremented in this
variant). -/
def survey (cfg : CleanCfg) (now : Rat) (infoErr : String → Bool) :
    List (String × ContentFile) → FS → Rat → List JEntry → FS × Rat × List JEntry
  | [], fs, totalSize, acc => (fs, totalSize, acc.reverse)
  | (name, info) :: rest, fs, totalSize, acc =>
    if (".meta".data.isSuffixOf name.data) then survey cfg now infoErr rest fs totalSize acc
    else if infoErr name then survey cfg now infoErr rest fs totalSize acc
    else
      let size : Rat := (info.data.length : Rat) / 1024 / 1024
      let age := now - info.mtime
      match fs.statMeta name with
      | none =>
        let fs1 := if cfg.dryRun then fs
          else (fs.removeContent name).removeMeta name
        survey cfg now infoErr rest fs1 totalSize acc
      | some mi =>
        if cfg.maxAge > 0 ∧ age > cfg.maxAge then
          let fs1 := if cfg.dryRun then fs
            else (fs.removeContent name).removeMeta name
          survey cfg now infoErr rest fs1 totalSize acc
        else
          let used := now - mi.mtime
          survey cfg now infoErr rest fs (totalSize + size)
            (⟨name, (info.data.length : Int), size * age * used, age, size, used⟩ :: acc)

/-- The eviction walk of `V3.cleanCache`: accumulate `targetCount` and
`targetSize` (megabytes) over the sorted list; entries are kept while both
running totals are under budget and removed from the first crossing on
(`dryRun` only logs). -/
def evictWalk (cfg : CleanCfg) : List JEntry → FS → Int → Rat → FS
  | [], fs, _, _ => fs
  | f :: rest, fs, targetCount, targetSize =>
    let targetCount := targetCount + 1
    let targetSize := targetSize + (f.sizeBytes : Rat) / 1024 / 1024
    if targetSize < cfg.maxCacheSize ∧ targetCount < cfg.maxCacheFiles then
      evictWalk cfg rest fs targetCount targetSize
    else
      let fs1 := if cfg.dryRun then fs
        else (fs.removeContent f.name).removeMeta f.name
      evictWalk cfg rest fs1 targetCount targetSize

/-- `cleanCache()` of the query-keyed build: scan (orphan and max-age
removal), sort ascending by score, and walk off the excess only when a budget
is exceeded.  `totalCount` is declared but never incremented in this variant,
so the count half of the outer guard compares `0` with `maxCacheFiles`. -/
def cleanCache (cfg : CleanCfg) (now : Rat) (infoErr : String → Bool) (fs : FS) : FS :=
  match survey cfg now infoErr fs.content fs 0 [] with
  | (fs1, totalSize, files) =>
    let sorted := List.insertionSort (fun a b => a.score ≤ b.score) files
    let totalCount : Int := 0
    if totalCount > cfg.maxCacheFiles ∨ totalSize > cfg.maxCacheSize then
      evictWalk cfg sorted fs1 0 0
    else fs1

end V3


/-! ## Concrete configurations, environments and cache states used by the
evaluated theorems and witnesses -/

/-- Decidable equality for `Except` results (both components decidable). -/
instance {ε α : Type} [DecidableEq ε] [DecidableEq α] : DecidableEq (Except ε α) := fun x y =>
  match x, y with
  | .ok a, .ok b =>
    if h : a = b then .isTrue (by rw [h]) else .isFalse (by intro c; cases c; exact h rfl)
  | .error a, .error b =>
    if h : a = b then .isTrue (by rw [h]) else .isFalse (by intro c; cases c; exact h rfl)
  | .ok _, .error _ => .isFalse (by intro c; cases c)
  | .error _, .ok _ => .isFalse (by intro c; cases c)

/-- A fetch environment in which the single origin always fails at transport
level (used as a concrete witness input). -/
def envAllFail : FetchEnv :=
  { upstreams := ["http://u"]
    get := fun _ => .err "connection refused"
    parseHTTPTime := fun _ => none
    now := 0
    createFails := false
    copyFails := none
    writeMetaFails := false }

/-- A 404 upstream response with a 3-byte body. -/
def resp404 : Response := ⟨404, "", "text/plain", "", 3, [97, 98, 99]⟩

/-- An environment whose single origin answers 404 without transport error. -/
def env404 : FetchEnv :=
  { upstreams := ["http://u"]
    get := fun url => if url = "http://u/k" then .resp resp404 else .err "x"
    parseHTTPTime := fun _ => none
    now := 0
    createFails := false
    copyFails := none
    writeMetaFails := false }

/-- The cache state produced by fetching `/k` through `env404`. -/
def fs404 : FS :=
  ⟨[(hashUrl "/k", ⟨[97, 98, 99], 0⟩)],
   [(hashUrl "/k", ⟨⟨"http://u/k", 404, "text/plain", 0, 0, "", 3⟩, 0⟩)]⟩

/-- The default serve configuration: expiry disabled, no canned bodies. -/
def cfg0 : ServeCfg := ⟨0, "", "", "", "", ""⟩

/-- A serve configuration with a canned 404 body (`CACHE_REPLY_404 = "nope"`). -/
def cfgReply404 : ServeCfg := ⟨0, "", "nope", "", "", ""⟩

/-- A 10-byte stored entry used to evaluate suffix-range requests. -/
def fsRange : FS :=
  ⟨[("f", ⟨[0, 1, 2, 3, 4, 5, 6, 7, 8, 9], 0⟩)],
   [("f", ⟨⟨"s", 200, "t", 0, 0, "", 10⟩, 0⟩)]⟩

/-- A 200 upstream response without `Last-Modified` or `Content-Length`. -/
def resp200 : Response := ⟨200, "", "image/png", "etag1", -1, [10, 20, 30]⟩

/-- An environment whose single origin answers `resp200` at time 5. -/
def env200 : FetchEnv :=
  { upstreams := ["http://u"]
    get := fun url => if url = "http://u/k" then .resp resp200 else .err "x"
    parseHTTPTime := fun _ => none
    now := 5
    createFails := false
    copyFails := none
    writeMetaFails := false }

/-- The cache state produced by fetching `/k` through `env200`. -/
def fsC5 : FS :=
  ⟨[(hashUrl "/k", ⟨[10, 20, 30], 5⟩)],
   [(hashUrl "/k", ⟨⟨"http://u/k", 200, "image/png", 0, 5, "etag1", 3⟩, 5⟩)]⟩

/-- A stale 200 record: retrieved at time 0. -/
def recStale : fileMeta := ⟨"http://u/a", 200, "text/plain", 0, 0, "", 3⟩

/-- A cache holding the stale entry under the cache key `/a?b=1` both as the
literal file name (as `serveFile` reads it) and under `hashUrl` (as
`checkExists` stats it). -/
def fsStale : FS :=
  ⟨[("/a?b=1", ⟨[1, 2, 3], 0⟩), (hashUrl "/a?b=1", ⟨[1, 2, 3], 0⟩)],
   [("/a?b=1", ⟨recStale, 0⟩), (hashUrl "/a?b=1", ⟨recStale, 0⟩)]⟩

/-- Serve configuration with a 3-hour maximum age. -/
def cfgMaxAge3 : ServeCfg := ⟨3, "", "", "", "", ""⟩

/-- A healthy origin at time 10 (it is never contacted in the C4 run). -/
def envC4 : FetchEnv :=
  { upstreams := ["http://u"]
    get := fun _ => .resp ⟨200, "", "t", "", 3, [9, 9, 9]⟩
    parseHTTPTime := fun _ => none
    now := 10
    createFails := false
    copyFails := none
    writeMetaFails := false }

/-- The cache after the C4 request: the un-hashed pair was removed by the
expired read; the hashed pair (still holding the stale record) survives. -/
def fsC4after : FS :=
  ⟨[(hashUrl "/a?b=1", ⟨[1, 2, 3], 0⟩)], [(hashUrl "/a?b=1", ⟨recStale, 0⟩)]⟩

/-- A stored 404 entry (no canned body configured). -/
def fs404entry : FS := ⟨[("k", ⟨[5, 6], 0⟩)], [("k", ⟨⟨"s", 404, "t", 0, 0, "", 2⟩, 0⟩)]⟩

/-- A cache directory holding a content file `a` with no `a.meta` sidecar. -/
def fsOrphan : FS := ⟨[("a", ⟨[1], 0⟩)], []⟩

/-- Megabyte total of a list of scan entries (`Size()/1024/1024` summed). -/
def mbSum (files : List V3.JEntry) : Rat :=
  (files.map (fun f => (f.sizeBytes : Rat) / 1024 / 1024)).sum

/-- Removing the pairs of a list of entries in order (the effect of the
eviction walk past the crossing point). -/
def removeRun (fs : FS) (files : List V3.JEntry) : FS :=
  files.foldl (fun acc f => (acc.removeContent f.name).removeMeta f.name) fs

/-- The C9 example metadata record. -/
def recC9 : fileMeta := ⟨"s", 200, "t", 0, 0, "", 1⟩

/-- The C9 example cache: three one-byte entries whose ages and last-use
times give retention scores 10 (`a`), 5 (`b`) and 20 (`c`) at time 4194304. -/
def fsC9 : FS :=
  ⟨[("a", ⟨[0], 2097152⟩), ("b", ⟨[0], 3145728⟩), ("c", ⟨[0], 0⟩)],
   [("a", ⟨recC9, 4194299⟩), ("b", ⟨recC9, 4194299⟩), ("c", ⟨recC9, 4194299⟩)]⟩

/-- The C9 example budgets: a size budget of `5/2097152` MB, forcing exactly
one eviction from the 3-byte total of `6/2097152` MB. -/
def cfgC9 : V3.CleanCfg := ⟨10000, 5/2097152, 0, false⟩

/-- The C9 example cache after the clean pass: exactly the pair of `c`
(score 20) is gone. -/
def fsC9after : FS :=
  ⟨[("a", ⟨[0], 2097152⟩), ("b", ⟨[0], 3145728⟩)],
   [("a", ⟨recC9, 4194299⟩), ("b", ⟨recC9, 4194299⟩)]⟩

/-- A large budget configuration for the C9 witness. -/
def cfgBig : V3.CleanCfg := ⟨10000, 100, 0, false⟩

/-! ## Helper lemmas about the file-system maps -/

theorem lookupF_eraseF_self {α : Type} (l : List (String × α)) (k : String) :
    lookupF (eraseF l k) k = none := by
  induction l with
  | nil => rfl
  | cons p rest ih =>
    by_cases h : p.1 = k
    · simpa [lookupF, eraseF, h] using ih
    · simpa [lookupF, eraseF, h] using ih

theorem lookupF_eraseF_ne {α : Type} (l : List (String × α)) (k k' : String)
    (h : k' ≠ k) : lookupF (eraseF l k) k' = lookupF l k' := by
  induction l with
  | nil => rfl
  | cons p rest ih =>
    by_cases hp : p.1 = k
    · rw [show eraseF (p :: rest) k = eraseF rest k from by simp [eraseF, hp]]
      rw [ih]
      have hp' : p.1 ≠ k' := by rw [hp]; exact fun c => h c.symm
      simp [lookupF, hp']
    · rw [show eraseF (p :: rest) k = p :: eraseF rest k from by simp [eraseF, hp]]
      by_cases hp' : p.1 = k'
      · simp [lookupF, hp']
      · simp [lookupF, hp', ih]

theorem lookupF_insertF_self {α : Type} (l : List (String × α)) (k : String) (v : α) :
    lookupF (insertF l k v) k = some v := by
  simp [lookupF, insertF]

theorem lookupF_insertF_ne {α : Type} (l : List (String × α)) (k k' : String) (v : α)
    (h : k' ≠ k) : lookupF (insertF l k v) k' = lookupF l k' := by
  have : k ≠ k' := fun c => h c.symm
  simp [lookupF, insertF, this]
  exact lookupF_eraseF_ne l k k' h

/-- C1 helper: after the deferred cleanup both files are gone. -/
theorem fetchFile_error_no_entry (env : FetchEnv) (fs : FS) (key : String)
    (fs' : FS) (n : Int) (e : GoErr)
    (h : fetchFile env fs key = .ok (fs', n, some e)) :
    fs'.statMeta (hashUrl key) = none ∧ fs'.statContent (hashUrl key) = none ∧
    checkExists fs' key = false := by
  unfold fetchFile at h
  cases hc : fetchFileCore env fs key with
  | error u => rw [hc] at h; exact absurd h (by simp)
  | ok t =>
    obtain ⟨fs1, n1, e1⟩ := t
    rw [hc] at h
    cases e1 with
    | none => simp at h
    | some e2 =>
      simp only [Except.ok.injEq, Prod.mk.injEq] at h
      obtain ⟨hfs, hn, he⟩ := h
      subst hfs
      refine ⟨lookupF_eraseF_self _ _, lookupF_eraseF_self _ _, ?_⟩
      unfold checkExists
      have hm : (((fs1.removeMeta (hashUrl key)).removeContent (hashUrl key)).statMeta
          (hashUrl key)) = none := lookupF_eraseF_self _ _
      simp [hm]

theorem checkExists_iff (fs : FS) (key : String) :
    (checkExists fs key = true ↔
      (fs.statMeta (hashUrl key)).isSome ∧ (fs.statContent (hashUrl key)).isSome) := by
  cases hm : fs.statMeta (hashUrl key) <;> cases hc : fs.statContent (hashUrl key) <;>
    simp [checkExists, hm, hc]

/-- C1: a `fetchFile` call that returns a non-nil error has removed both the
content file and the metadata file of the key, so `checkExists` is false. -/
theorem claim_C1 (env : FetchEnv) (fs : FS) (key : String) (fs' : FS) (n : Int)
    (e : GoErr) (h : fetchFile env fs key = .ok (fs', n, some e)) :
    fs'.statMeta (hashUrl key) = none ∧ fs'.statContent (hashUrl key) = none ∧
    checkExists fs' key = false :=
  fetchFile_error_no_entry env fs key fs' n e h

/-- C1 witness: a concrete failed fetch, evaluated, leaves no entry. -/
theorem claim_C1_witness :
    fetchFile envAllFail ⟨[], []⟩ "/k" =
      .ok (⟨[], []⟩, 0, some (.transport "connection refused")) ∧
    checkExists (⟨[], []⟩ : FS) "/k" = false :=
  ⟨by decide, (claim_C1 envAllFail ⟨[], []⟩ "/k" ⟨[], []⟩ 0
    (.transport "connection refused") (by decide)).2.2⟩

/-- C2: `checkExists` holds iff both files stat successfully; with exactly one
of the two present it is false. -/
theorem claim_C2 (fs : FS) (key : String) :
    (checkExists fs key = true ↔
      (fs.statMeta (hashUrl key)).isSome ∧ (fs.statContent (hashUrl key)).isSome) ∧
    (((fs.statMeta (hashUrl key)).isSome ∧ (fs.statContent (hashUrl key)) = none) ∨
      (fs.statMeta (hashUrl key) = none ∧ (fs.statContent (hashUrl key)).isSome) →
      checkExists fs key = false) := by
  refine ⟨checkExists_iff fs key, fun h => ?_⟩
  cases hm : fs.statMeta (hashUrl key) <;> cases hc : fs.statContent (hashUrl key) <;>
    simp_all [checkExists]

/-- C2 witness: a metadata-only pair is reported as non-existent. -/
theorem claim_C2_witness :
    checkExists (⟨[], [(hashUrl "/k", ⟨⟨"s", 200, "t", 0, 0, "e", 1⟩, 0⟩)]⟩ : FS) "/k" = false :=
  (claim_C2 ⟨[], [(hashUrl "/k", ⟨⟨"s", 200, "t", 0, 0, "e", 1⟩, 0⟩)]⟩ "/k").2
    (Or.inl ⟨by decide, by decide⟩)

/-! ## C3: the upstream loop -/

/-- If every origin in `pre` yields either a transport error or a non-200
response, and `o` yields a 200 response, the loop stops at `o` with that
response and a nil error, regardless of the remaining origins and of the
incoming state. -/
theorem fetchLoop_first_success (get : String → GetResult) (key : String)
    (pre : List String) (o : String) (post : List String) (r : Response)
    (st : String × Option Response × Option GoErr)
    (hpre : ∀ u ∈ pre, ∀ resp, get (joinUrl u key) = .resp resp → resp.StatusCode ≠ 200)
    (ho : get (joinUrl o key) = .resp r) (h200 : r.StatusCode = 200) :
    fetchLoop get key (pre ++ o :: post) st = (joinUrl o key, some r, none) := by
  induction pre generalizing st with
  | nil => simp [fetchLoop, ho, h200]
  | cons u rest ih =>
    cases hu : get (joinUrl u key) with
    | err e =>
      simp only [List.cons_append, fetchLoop, hu]
      exact ih _ (fun v hv resp hr => hpre v (List.mem_cons_of_mem u hv) resp hr)
    | resp ru =>
      have hne : ru.StatusCode ≠ 200 := hpre u (List.mem_cons_self u rest) ru hu
      simp only [List.cons_append, fetchLoop, hu, if_neg hne]
      exact ih _ (fun v hv resp hr => hpre v (List.mem_cons_of_mem u hv) resp hr)

/-- If every origin fails (no 200) and the final origin fails with a
transport error, the loop ends with `resp = nil` and that error. -/
theorem fetchLoop_last_transport (get : String → GetResult) (key : String)
    (pre : List String) (ulast : String) (msg : String)
    (st : String × Option Response × Option GoErr)
    (hpre : ∀ u ∈ pre, ∀ resp, get (joinUrl u key) = .resp resp → resp.StatusCode ≠ 200)
    (hlast : get (joinUrl ulast key) = .err msg) :
    fetchLoop get key (pre ++ [ulast]) st =
      (joinUrl ulast key, none, some (.transport msg)) := by
  induction pre generalizing st with
  | nil => simp [fetchLoop, hlast]
  | cons u rest ih =>
    cases hu : get (joinUrl u key) with
    | err e =>
      simp only [List.cons_append, fetchLoop, hu]
      exact ih _ (fun v hv resp hr => hpre v (List.mem_cons_of_mem u hv) resp hr)
    | resp ru =>
      have hne : ru.StatusCode ≠ 200 := hpre u (List.mem_cons_self u rest) ru hu
      simp only [List.cons_append, fetchLoop, hu, if_neg hne]
      exact ih _ (fun v hv resp hr => hpre v (List.mem_cons_of_mem u hv) resp hr)

/-- C3 counterexample: the single configured origin responds 404 (so no
origin "succeeds" in the claim's sense), yet `fetchFile` returns a nil error
and creates the cache entry, contradicting "returns the last error and the
cache entry is never created". -/
theorem claim_C3_counterexample :
    env404.get (joinUrl "http://u" "/k") = .resp resp404 ∧
    resp404.StatusCode = 404 ∧
    fetchFile env404 ⟨[], []⟩ "/k" = .ok (fs404, 3, none) ∧
    checkExists fs404 "/k" = true :=
  ⟨by decide, by decide, by decide, by decide⟩

/-- C3 (amended): `fetchFile` iterates the origins in order and stops at the
first origin answering with no transport error and HTTP 200 (the origins
after it are irrelevant); and when every origin fails with the final failure
a transport error, `fetchFile` returns that error and the entry is never
created.  (When the final origin instead answers with a non-200 response,
`fetchFile` proceeds to cache it — see the counterexample.) -/
theorem claim_C3_amended :
    (∀ (get : String → GetResult) (key : String) (pre : List String) (o : String)
      (post : List String) (r : Response) (st : String × Option Response × Option GoErr),
      (∀ u ∈ pre, ∀ resp, get (joinUrl u key) = .resp resp → resp.StatusCode ≠ 200) →
      get (joinUrl o key) = .resp r → r.StatusCode = 200 →
      fetchLoop get key (pre ++ o :: post) st = (joinUrl o key, some r, none)) ∧
    (∀ (env : FetchEnv) (fs : FS) (key : String) (pre : List String) (ulast msg : String),
      env.upstreams = pre ++ [ulast] →
      (∀ u ∈ pre, ∀ resp, env.get (joinUrl u key) = .resp resp → resp.StatusCode ≠ 200) →
      env.get (joinUrl ulast key) = .err msg →
      fetchFile env fs key =
        .ok ((fs.removeMeta (hashUrl key)).removeContent (hashUrl key), 0,
          some (.transport msg)) ∧
      checkExists ((fs.removeMeta (hashUrl key)).removeContent (hashUrl key)) key = false) := by
  constructor
  · exact fetchLoop_first_success
  · intro env fs key pre ulast msg hups hpre hlast
    have hloop := fetchLoop_last_transport env.get key pre ulast msg ("", none, none) hpre hlast
    have hfetch : fetchFile env fs key =
        .ok ((fs.removeMeta (hashUrl key)).removeContent (hashUrl key), 0,
          some (.transport msg)) := by
      unfold fetchFile fetchFileCore
      rw [hups, hloop]
    refine ⟨hfetch, ?_⟩
    have hm : (((fs.removeMeta (hashUrl key)).removeContent (hashUrl key)).statMeta
        (hashUrl key)) = none := lookupF_eraseF_self _ _
    simp [checkExists, hm]

/-- C3 amended witness: both clauses at concrete inputs - a first-origin 200
hit with a second origin configured, and a one-origin transport failure. -/
theorem claim_C3_amended_witness :
    fetchLoop (fun url => if url = "http://u/k" then .resp ⟨200, "", "t", "", 1, [1]⟩ else .err "x")
      "/k" (["http://u"] ++ "http://v" :: []) ("", none, none) =
      ("http://u/k", some ⟨200, "", "t", "", 1, [1]⟩, none) ∧
    fetchFile envAllFail ⟨[], []⟩ "/k" =
      .ok (⟨[], []⟩, 0, some (.transport "connection refused")) := by
  constructor
  · exact claim_C3_amended.1 _ "/k" [] "http://u" ["http://v"] ⟨200, "", "t", "", 1, [1]⟩
      ("", none, none) (by intro u hu; cases hu) (by decide) (by decide)
  · have h := (claim_C3_amended.2 envAllFail ⟨[], []⟩ "/k" [] "http://u" "connection refused"
      (by decide) (by intro u hu; cases hu) (by decide)).1
    simpa using h

/-! ## C10 and C7: range parsing -/

/-- A successfully built range keeps the bounds it was given. -/
theorem buildRange_ok (a b : Int) (r : rangeRequest)
    (hr : buildRange a b = .ok (some r)) :
    a ≤ b ∧ r.start = a ∧ r.stop = b ∧ r.length = b - a + 1 := by
  unfold buildRange at hr
  split at hr
  · exact absurd hr (by simp)
  · injection hr with hr1
    injection hr1 with hr2
    subst hr2
    exact ⟨by omega, rfl, rfl, rfl⟩

/-- The normalised start position is never negative. -/
theorem normStart_ok (S s0 s1 : Int) (h : normStart S s0 = .ok s1) : 0 ≤ s1 := by
  unfold normStart at h
  split at h
  · split at h
    · exact absurd h (by simp)
    · injection h with h1; omega
  · injection h with h1; omega

/-- Any range surviving validation lies inside `[0, S-1]`. -/
theorem validateRange_bounds (S s0 e0 : Int) (r : rangeRequest)
    (hr : validateRange S s0 e0 = .ok (some r)) :
    0 ≤ r.start ∧ r.start ≤ r.stop ∧ r.stop ≤ S - 1 ∧ r.length = r.stop - r.start + 1 := by
  unfold validateRange at hr
  split at hr
  · exact absurd hr (by simp)
  · rename_i start1 heq
    obtain ⟨hab, h1, h2, h3⟩ := buildRange_ok _ _ _ hr
    have hs := normStart_ok S s0 start1 heq
    have hend : (if e0 ≥ S then S - 1 else e0) ≤ S - 1 := by split <;> omega
    omega

/-- Any range returned by `parseRangeHeader` lies inside the stored size. -/
theorem parseRangeHeader_bounds (hdr : String) (S : Int) (r : rangeRequest)
    (hr : parseRangeHeader hdr S = .ok (some r)) :
    0 ≤ r.start ∧ r.start ≤ r.stop ∧ r.stop ≤ S - 1 ∧ r.length = r.stop - r.start + 1 := by
  simp only [parseRangeHeader] at hr
  split at hr
  · exact absurd hr (by simp)
  · split at hr
    · split at hr
      · exact absurd hr (by simp)
      · split at hr
        · exact absurd hr (by simp)
        · exact validateRange_bounds _ _ _ _ hr
    · exact absurd hr (by simp)

/-- A non-empty `Range` header never yields the no-range result: it is either
an error or an in-bounds range. -/
theorem parseRangeHeader_total (hdr : String) (S : Int) (hne : hdr ≠ "") :
    parseRangeHeader hdr S ≠ .ok none := by
  simp only [parseRangeHeader]
  split
  · rename_i h
    refine absurd ?_ hne
    cases hdr
    simp only [] at h
    subst h
    rfl
  · split
    · split
      · simp
      · split
        · simp
        · unfold validateRange
          split
          · simp
          · unfold buildRange
            (repeat' split) <;> simp
    · simp

/-- C10: every range `parseRangeHeader` returns satisfies
`0 ≤ start ≤ stop ≤ S - 1` with `length = stop - start + 1 ≥ 1`, so the
`Seek` offset and `LimitReader` count of `serveFile` stay inside the entry;
and a non-empty header for which no range is produced yields an error, never
a silent absence. -/
theorem claim_C10 :
    (∀ (hdr : String) (S : Int) (r : rangeRequest), 0 ≤ S →
      parseRangeHeader hdr S = .ok (some r) →
      0 ≤ r.start ∧ r.start ≤ r.stop ∧ r.stop ≤ S - 1 ∧
        r.length = r.stop - r.start + 1 ∧ 1 ≤ r.length) ∧
    (∀ (hdr : String) (S : Int), hdr ≠ "" → parseRangeHeader hdr S ≠ .ok none) := by
  constructor
  · intro hdr S r _ hr
    obtain ⟨h1, h2, h3, h4⟩ := parseRangeHeader_bounds hdr S r hr
    exact ⟨h1, h2, h3, h4, by omega⟩
  · exact parseRangeHeader_total

/-- C10 witness: a concrete in-bounds range and a concrete malformed header. -/
theorem claim_C10_witness :
    ((0:Int) ≤ 10 ∧ parseRangeHeader "bytes=2-5" 10 = .ok (some ⟨2, 5, 4⟩)) ∧
    (0 ≤ (2:Int) ∧ (2:Int) ≤ 5 ∧ (5:Int) ≤ 10 - 1 ∧ (4:Int) = 5 - 2 + 1 ∧ 1 ≤ (4:Int)) ∧
    (("x" : String) ≠ "" ∧ parseRangeHeader "x" 10 ≠ .ok none) :=
  ⟨⟨by decide, by decide⟩,
   claim_C10.1 "bytes=2-5" 10 ⟨2, 5, 4⟩ (by decide) (by decide),
   by decide, claim_C10.2 "x" 10 (by decide)⟩

/-- C7 (code bug, evaluated): `bytes=-3` against a 10-byte entry parses to
`start 0, end 3, length 4` - the dash split consumes the sign, the parsed
start stays `0`, and the negative-offset branch is dead - so `serveFile`
streams the first four bytes instead of the last three. -/
theorem claim_C7 :
    parseRangeHeader "bytes=-3" 10 = .ok (some ⟨0, 3, 4⟩) ∧
    (serveFile cfg0 0 fsRange RespWriter.empty "bytes=-3" "f" [] 0 "HIT").2.1.body =
      [0, 1, 2, 3] ∧
    ([0, 1, 2, 3] : Bytes) ≠ [7, 8, 9] :=
  ⟨by decide, by decide, by decide⟩

/-! ## C5: fetch-then-read round trip -/

/-- Inversion of a successful `fetchFile` whose upstream loop ended at
`(url, resp)`: the new state holds the response body as content and the
metadata record built from the response, both stamped `env.now`. -/
theorem fetchFileCore_ok_inv (env : FetchEnv) (fs fs' : FS) (key url : String)
    (resp : Response) (n : Int)
    (hloop : fetchLoop env.get key env.upstreams ("", none, none) = (url, some resp, none))
    (hcore : fetchFileCore env fs key = .ok (fs', n, none)) :
    ∃ lm, (if resp.LastModifiedHdr = "" then some 0
        else env.parseHTTPTime resp.LastModifiedHdr) = some lm ∧
      fs' = (fs.writeContent (hashUrl key) ⟨resp.Body, env.now⟩).writeMeta (hashUrl key)
        ⟨{ Source := url
           Status := resp.StatusCode
           ContentType := resp.ContentTypeHdr
           LastModified := lm
           Retrieved := env.now
           ETag := resp.ETagHdr
           Size := if resp.ContentLength ≤ 0 then (resp.Body.length : Int)
             else resp.ContentLength }, env.now⟩ ∧
      n = (resp.Body.length : Int) := by
  unfold fetchFileCore at hcore
  rw [hloop] at hcore
  dsimp only at hcore
  split at hcore
  · exact absurd hcore (by simp)
  · split at hcore
    · exact absurd hcore (by simp)
    · split at hcore
      · exact absurd hcore (by simp)
      · rename_i lm hlm
        split at hcore
        · exact absurd hcore (by simp)
        · simp only [Except.ok.injEq, Prod.mk.injEq] at hcore
          obtain ⟨hfs, hn, -⟩ := hcore
          exact ⟨lm, hlm, hfs.symm, hn.symm⟩

/-- Inversion of a successful `fetchFile` whose upstream loop ended at
`(url, resp)`: the new state holds the response body as content and the
metadata record built from the response, both stamped `env.now`. -/
theorem fetchFile_ok_inv (env : FetchEnv) (fs fs' : FS) (key url : String)
    (resp : Response) (n : Int)
    (hloop : fetchLoop env.get key env.upstreams ("", none, none) = (url, some resp, none))
    (hfetch : fetchFile env fs key = .ok (fs', n, none)) :
    ∃ lm, (if resp.LastModifiedHdr = "" then some 0
        else env.parseHTTPTime resp.LastModifiedHdr) = some lm ∧
      fs' = (fs.writeContent (hashUrl key) ⟨resp.Body, env.now⟩).writeMeta (hashUrl key)
        ⟨{ Source := url
           Status := resp.StatusCode
           ContentType := resp.ContentTypeHdr
           LastModified := lm
           Retrieved := env.now
           ETag := resp.ETagHdr
           Size := if resp.ContentLength ≤ 0 then (resp.Body.length : Int)
             else resp.ContentLength }, env.now⟩ ∧
      n = (resp.Body.length : Int) := by
  unfold fetchFile at hfetch
  cases hc : fetchFileCore env fs key with
  | error u => rw [hc] at hfetch; exact absurd hfetch (by simp)
  | ok t =>
    obtain ⟨fs1, n1, e1⟩ := t
    rw [hc] at hfetch
    cases e1 with
    | some e2 => exact absurd hfetch (by simp)
    | none =>
      simp only [Except.ok.injEq, Prod.mk.injEq] at hfetch
      obtain ⟨h1, h2, -⟩ := hfetch
      subst h1; subst h2
      exact fetchFileCore_ok_inv env fs fs1 key url resp n1 hloop hc

/-- A plain read (no conditional headers, no range) of a fresh 200 entry
streams exactly the stored content file with no error and no state change. -/
theorem serveFile_plain_200 (cfg : ServeCfg) (now : Rat) (fs : FS) (f : String)
    (mf : MetaFile) (file : ContentFile) (result : String)
    (hm : fs.statMeta f = some mf) (hc : fs.statContent f = some file)
    (hstale : ¬(cfg.maxAge > 0 ∧ now - mf.record.Retrieved > cfg.maxAge))
    (h200 : mf.record.Status = 200) :
    (serveFile cfg now fs RespWriter.empty "" f [] 0 result).2.1.body = file.data ∧
    (serveFile cfg now fs RespWriter.empty "" f [] 0 result).2.2.2 = none ∧
    (serveFile cfg now fs RespWriter.empty "" f [] 0 result).1 = fs := by
  have hrange : parseRangeHeader "" mf.record.Size = .ok none := rfl
  unfold serveFile
  rw [hm, hc]
  dsimp only
  rw [if_neg hstale, if_neg (by simp [h200])]
  rw [if_neg (by rintro ⟨-, h, -⟩; exact h rfl)]
  rw [if_neg (by simp)]
  unfold serve200
  rw [hrange]
  simp [RespWriter.empty, RespWriter.write, RespWriter.writeHeader, RespWriter.setHeader]

/-- Writing the sidecar makes it stat as written. -/
theorem statMeta_writeMeta (fs : FS) (f : String) (mf : MetaFile) :
    (fs.writeMeta f mf).statMeta f = some mf := by
  simp [FS.statMeta, FS.writeMeta, lookupF_insertF_self]

/-- Writing the sidecar does not touch the content file. -/
theorem statContent_writeMeta (fs : FS) (f : String) (mf : MetaFile) :
    (fs.writeMeta f mf).statContent f = fs.statContent f := rfl

/-- Writing the content file makes it stat as written. -/
theorem statContent_writeContent (fs : FS) (f : String) (cf : ContentFile) :
    (fs.writeContent f cf).statContent f = some cf := by
  simp [FS.statContent, FS.writeContent, lookupF_insertF_self]

/-- The non-200 replay with no canned body configured for the stored status
streams the stored content file verbatim. -/
theorem serveNon200_default (cfg : ServeCfg) (w : RespWriter) (status : Int)
    (file : ContentFile)
    (h403 : ¬(status = 403 ∧ cfg.reply403 ≠ ""))
    (h404 : ¬(status = 404 ∧ cfg.reply404 ≠ ""))
    (h500 : ¬(status = 500 ∧ cfg.reply500 ≠ ""))
    (h503 : ¬(status = 503 ∧ cfg.reply503 ≠ ""))
    (h504 : ¬(status = 504 ∧ cfg.reply504 ≠ "")) :
    serveNon200 cfg w status file = (w.write file.data, (file.data.length : Int)) := by
  unfold serveNon200
  rw [if_neg h403, if_neg h404, if_neg h500, if_neg h503, if_neg h504]

/-- A plain read of a fresh non-200 entry whose status has no canned override
streams the stored bytes with nil error. -/
theorem serveFile_plain_non200 (cfg : ServeCfg) (now : Rat) (fs : FS) (f : String)
    (mf : MetaFile) (file : ContentFile) (result : String)
    (hm : fs.statMeta f = some mf) (hc : fs.statContent f = some file)
    (hstale : ¬(cfg.maxAge > 0 ∧ now - mf.record.Retrieved > cfg.maxAge))
    (hne : mf.record.Status ≠ 200)
    (h403 : ¬(mf.record.Status = 403 ∧ cfg.reply403 ≠ ""))
    (h404 : ¬(mf.record.Status = 404 ∧ cfg.reply404 ≠ ""))
    (h500 : ¬(mf.record.Status = 500 ∧ cfg.reply500 ≠ ""))
    (h503 : ¬(mf.record.Status = 503 ∧ cfg.reply503 ≠ ""))
    (h504 : ¬(mf.record.Status = 504 ∧ cfg.reply504 ≠ "")) :
    (serveFile cfg now fs RespWriter.empty "" f [] 0 result).2.1.body = file.data ∧
    (serveFile cfg now fs RespWriter.empty "" f [] 0 result).2.2.2 = none := by
  unfold serveFile
  rw [hm, hc]
  dsimp only
  rw [if_neg hstale, if_pos hne]
  rw [serveNon200_default cfg _ mf.record.Status file h403 h404 h500 h503 h504]
  simp [RespWriter.empty, RespWriter.write, RespWriter.writeHeader, RespWriter.setHeader]

/-- C5 counterexample: the fetch through the single 404 origin is successful
(nil error, entry created: C3's trace), yet the immediate plain read with a
canned 404 body configured streams that canned body, not the fetched upstream
bytes - and still with nil error.  The byte-identity conjunct of the claim
fails for this successful fetch. -/
theorem claim_C5_counterexample :
    fetchFile env404 ⟨[], []⟩ "/k" = .ok (fs404, 3, none) ∧
    (serveFile cfgReply404 env404.now fs404 RespWriter.empty "" (hashUrl "/k") [] 0
      "MISS").2.1.body = strBytes "nope" ∧
    (serveFile cfgReply404 env404.now fs404 RespWriter.empty "" (hashUrl "/k") [] 0
      "MISS").2.2.2 = none ∧
    strBytes "nope" ≠ resp404.Body :=
  ⟨by decide, by decide, by decide, by decide⟩

/-- C5 (amended): after a successful fetch that chose `(url, resp)`, an
immediate plain read of the same key (1) always reads back a metadata record
with `Source = url` and `ContentType`/`ETag` from the upstream headers;
(2) streams bytes identical to the upstream body with nil error when the
stored status is 200; and (3) does so as well for a non-200 stored status
with no canned reply configured for it - when a canned reply is configured,
the canned body is streamed instead (see the counterexample). -/
theorem claim_C5_amended :
    (∀ (env : FetchEnv) (fs fs' : FS) (key url : String) (resp : Response) (n : Int),
      fetchLoop env.get key env.upstreams ("", none, none) = (url, some resp, none) →
      fetchFile env fs key = .ok (fs', n, none) →
      ∃ mf, fs'.statMeta (hashUrl key) = some mf ∧ mf.record.Source = url ∧
        mf.record.ContentType = resp.ContentTypeHdr ∧ mf.record.ETag = resp.ETagHdr) ∧
    (∀ (env : FetchEnv) (fs fs' : FS) (key url : String) (resp : Response) (n : Int)
      (cfg : ServeCfg) (result : String),
      fetchLoop env.get key env.upstreams ("", none, none) = (url, some resp, none) →
      fetchFile env fs key = .ok (fs', n, none) →
      resp.StatusCode = 200 →
      (serveFile cfg env.now fs' RespWriter.empty "" (hashUrl key) [] 0 result).2.1.body
        = resp.Body ∧
      (serveFile cfg env.now fs' RespWriter.empty "" (hashUrl key) [] 0 result).2.2.2
        = none) ∧
    (∀ (env : FetchEnv) (fs fs' : FS) (key url : String) (resp : Response) (n : Int)
      (cfg : ServeCfg) (result : String),
      fetchLoop env.get key env.upstreams ("", none, none) = (url, some resp, none) →
      fetchFile env fs key = .ok (fs', n, none) →
      resp.StatusCode ≠ 200 →
      ¬(resp.StatusCode = 403 ∧ cfg.reply403 ≠ "") →
      ¬(resp.StatusCode = 404 ∧ cfg.reply404 ≠ "") →
      ¬(resp.StatusCode = 500 ∧ cfg.reply500 ≠ "") →
      ¬(resp.StatusCode = 503 ∧ cfg.reply503 ≠ "") →
      ¬(resp.StatusCode = 504 ∧ cfg.reply504 ≠ "") →
      (serveFile cfg env.now fs' RespWriter.empty "" (hashUrl key) [] 0 result).2.1.body
        = resp.Body ∧
      (serveFile cfg env.now fs' RespWriter.empty "" (hashUrl key) [] 0 result).2.2.2
        = none) := by
  refine ⟨?_, ?_, ?_⟩
  · intro env fs fs' key url resp n hloop hfetch
    obtain ⟨lm, hlm, hfs, hn⟩ := fetchFile_ok_inv env fs fs' key url resp n hloop hfetch
    subst hfs
    exact ⟨_, statMeta_writeMeta _ _ _, rfl, rfl, rfl⟩
  · intro env fs fs' key url resp n cfg result hloop hfetch h200
    obtain ⟨lm, hlm, hfs, hn⟩ := fetchFile_ok_inv env fs fs' key url resp n hloop hfetch
    subst hfs
    set mfv : MetaFile :=
      { record :=
          { Source := url, Status := resp.StatusCode, ContentType := resp.ContentTypeHdr,
            LastModified := lm, Retrieved := env.now, ETag := resp.ETagHdr,
            Size := if resp.ContentLength ≤ 0 then ((resp.Body.length : Int))
              else resp.ContentLength }
        mtime := env.now } with hmf
    have hserve := serveFile_plain_200 cfg env.now
      ((fs.writeContent (hashUrl key) ⟨resp.Body, env.now⟩).writeMeta (hashUrl key) mfv)
      (hashUrl key) mfv ⟨resp.Body, env.now⟩ result
      (statMeta_writeMeta _ _ _)
      ((statContent_writeMeta _ _ _).trans (statContent_writeContent _ _ _))
      (by rintro ⟨h1, h2⟩; simp [hmf] at h2; linarith) h200
    exact ⟨hserve.1, hserve.2.1⟩
  · intro env fs fs' key url resp n cfg result hloop hfetch hne h403 h404 h500 h503 h504
    obtain ⟨lm, hlm, hfs, hn⟩ := fetchFile_ok_inv env fs fs' key url resp n hloop hfetch
    subst hfs
    set mfv : MetaFile :=
      { record :=
          { Source := url, Status := resp.StatusCode, ContentType := resp.ContentTypeHdr,
            LastModified := lm, Retrieved := env.now, ETag := resp.ETagHdr,
            Size := if resp.ContentLength ≤ 0 then ((resp.Body.length : Int))
              else resp.ContentLength }
        mtime := env.now } with hmf
    exact serveFile_plain_non200 cfg env.now
      ((fs.writeContent (hashUrl key) ⟨resp.Body, env.now⟩).writeMeta (hashUrl key) mfv)
      (hashUrl key) mfv ⟨resp.Body, env.now⟩ result
      (statMeta_writeMeta _ _ _)
      ((statContent_writeMeta _ _ _).trans (statContent_writeContent _ _ _))
      (by rintro ⟨h1, h2⟩; simp [hmf] at h2; linarith) hne h403 h404 h500 h503 h504

/-- C5 amended witness: the three clauses at concrete fetches - the metadata
record of the 404 fetch, the byte-identical read of the 200 fetch, and the
byte-identical read of the 404 fetch when no canned body is configured. -/
theorem claim_C5_amended_witness :
    (∃ mf, fs404.statMeta (hashUrl "/k") = some mf ∧ mf.record.Source = "http://u/k" ∧
      mf.record.ContentType = resp404.ContentTypeHdr ∧
      mf.record.ETag = resp404.ETagHdr) ∧
    ((serveFile cfg0 env200.now fsC5 RespWriter.empty "" (hashUrl "/k") [] 0
        "MISS").2.1.body = resp200.Body ∧
     (serveFile cfg0 env200.now fsC5 RespWriter.empty "" (hashUrl "/k") [] 0
        "MISS").2.2.2 = none) ∧
    ((serveFile cfg0 env404.now fs404 RespWriter.empty "" (hashUrl "/k") [] 0
        "MISS").2.1.body = resp404.Body ∧
     (serveFile cfg0 env404.now fs404 RespWriter.empty "" (hashUrl "/k") [] 0
        "MISS").2.2.2 = none) :=
  ⟨claim_C5_amended.1 env404 ⟨[], []⟩ fs404 "/k" "http://u/k" resp404 3
      (by decide) (by decide),
   claim_C5_amended.2.1 env200 ⟨[], []⟩ fsC5 "/k" "http://u/k" resp200 3 cfg0 "MISS"
      (by decide) (by decide) (by decide),
   claim_C5_amended.2.2 env404 ⟨[], []⟩ fs404 "/k" "http://u/k" resp404 3 cfg0 "MISS"
      (by decide) (by decide) (by decide) (by decide) (by decide) (by decide)
      (by decide) (by decide)⟩

/-! ## C4: staleness during a read

`serveFile` keys the disk files by its `filename` argument verbatim, while
`checkExists` and `fetchFile` key them by `hashUrl(..)` — and `handleCache`
passes the cache key `path + "?" + query` to the former and `r.URL.Path` to
the latter.  The evaluation below drives `handleCache` over a state holding a
stale entry under both names the handler consults: the expired read removes
the un-hashed pair and returns `ErrCacheExpired`, but the re-check still sees
the hashed pair, so no fetch happens and the MISS serve fails with a 500. -/

set_option maxRecDepth 4000 in
/-- C4 (code bug, evaluated): with `maxAge = 3` and an entry retrieved at
time 0 read at time 10, the expired read does remove both files it read and
reports `ErrCacheExpired` — but the request then ends as a 500
`"error serving file"` with `Outcome.serveFailed`: the existence re-check
consults the hashed name, still present, so the entry is never re-fetched
(its stale record survives) and no MISS response is produced. -/
theorem claim_C4 :
    (cfgMaxAge3.maxAge > 0 ∧ envC4.now - recStale.Retrieved > cfgMaxAge3.maxAge) ∧
    (serveFile cfgMaxAge3 envC4.now fsStale RespWriter.empty "" "/a?b=1" [] 0 "HIT").2.2.2
      = some .cacheExpired ∧
    (serveFile cfgMaxAge3 envC4.now fsStale RespWriter.empty "" "/a?b=1" [] 0 "HIT").1.statMeta
      "/a?b=1" = none ∧
    handleCache cfgMaxAge3 envC4 fsStale "/a" "b=1" "" [] 0 =
      .ok (fsC4after, httpError RespWriter.empty "error serving file" 500, .serveFailed) ∧
    (httpError RespWriter.empty "error serving file" 500).finalStatus = 500 ∧
    fsC4after.statMeta (hashUrl "/a?b=1") = some ⟨recStale, 0⟩ :=
  ⟨by with_unfolding_all decide, by with_unfolding_all decide, by with_unfolding_all decide,
   by with_unfolding_all decide, by decide, by decide⟩

/-! ## C6: the sidecar touch -/

/-- C6 counterexample: at time 7 the `main.go` `serveFile` replays a stored
404 successfully (nil error, status 404, not 304) yet leaves the file system
- in particular the sidecar's mtime, still 0 - completely unchanged: not
every successful non-304 read touches. -/
theorem claim_C6_counterexample :
    (MainGo.serveFile cfg0 7 fs404entry RespWriter.empty "k" [] 0 "HIT").2.2.2 = none ∧
    (MainGo.serveFile cfg0 7 fs404entry RespWriter.empty "k" [] 0 "HIT").2.1.finalStatus
      = 404 ∧
    (MainGo.serveFile cfg0 7 fs404entry RespWriter.empty "k" [] 0 "HIT").1 = fs404entry ∧
    (fs404entry.statMeta "k").map MetaFile.mtime = some 0 ∧ (0 : Rat) ≠ 7 :=
  ⟨by decide, by decide, by decide, by decide, by with_unfolding_all decide⟩

/-- The range-supporting `serveFile` never rewrites a sidecar: any sidecar
either keeps its previous stat result or is gone (expiry removal). -/
theorem serveFile_never_touches (cfg : ServeCfg) (now : Rat) (fs : FS) (w : RespWriter)
    (rh f : String) (eTags : List String) (ims : Rat) (res k' : String) :
    ((serveFile cfg now fs w rh f eTags ims res).1.statMeta k' = fs.statMeta k') ∨
    ((serveFile cfg now fs w rh f eTags ims res).1.statMeta k' = none) := by
  unfold serveFile
  cases hm : fs.statMeta f with
  | none => left; rfl
  | some mf =>
    cases hc : fs.statContent f with
    | none => left; rfl
    | some file =>
      dsimp only
      split
      · by_cases hk : k' = f
        · right
          subst hk
          exact lookupF_eraseF_self _ _
        · left
          exact lookupF_eraseF_ne _ _ _ hk
      · split
        · left; rfl
        · split
          · left; rfl
          · split
            · left; rfl
            · unfold serve200
              split
              · left; rfl
              · split
                · left; rfl
                · left; rfl

/-- C6 (amended): in the `main.go` variant, a read of a 200 entry that passes
both conditional checks touches the sidecar mtime to `now` (and errors nil);
a read replaying a stored non-200 status leaves the file system unchanged;
and the range-supporting variant never touches any sidecar. -/
theorem claim_C6_amended :
    (∀ (cfg : ServeCfg) (now : Rat) (fs : FS) (w : RespWriter) (f : String)
      (eTags : List String) (ims : Rat) (res : String) (mf : MetaFile) (file : ContentFile),
      fs.statMeta f = some mf → fs.statContent f = some file →
      mf.record.Status = 200 →
      ¬(mf.record.LastModified ≠ 0 ∧ ims ≠ 0 ∧ mf.record.LastModified < ims) →
      ¬(eTags.any (fun tag => trimSpaceGo tag = mf.record.ETag)) →
      (MainGo.serveFile cfg now fs w f eTags ims res).1.statMeta f =
        some ⟨mf.record, now⟩ ∧
      (MainGo.serveFile cfg now fs w f eTags ims res).2.2.2 = none) ∧
    (∀ (cfg : ServeCfg) (now : Rat) (fs : FS) (w : RespWriter) (f : String)
      (eTags : List String) (ims : Rat) (res : String) (mf : MetaFile) (file : ContentFile),
      fs.statMeta f = some mf → fs.statContent f = some file →
      mf.record.Status ≠ 200 →
      (MainGo.serveFile cfg now fs w f eTags ims res).1 = fs) ∧
    (∀ (cfg : ServeCfg) (now : Rat) (fs : FS) (w : RespWriter) (rh f : String)
      (eTags : List String) (ims : Rat) (res k' : String),
      ((serveFile cfg now fs w rh f eTags ims res).1.statMeta k' = fs.statMeta k') ∨
      ((serveFile cfg now fs w rh f eTags ims res).1.statMeta k' = none)) := by
  refine ⟨?_, ?_, serveFile_never_touches⟩
  · intro cfg now fs w f eTags ims res mf file hm hc h200 h304 hetag
    unfold MainGo.serveFile
    rw [hm, hc]
    dsimp only
    rw [if_neg (by simp [h200]), if_neg h304, if_neg (by simpa using hetag)]
    exact ⟨statMeta_writeMeta _ _ _, rfl⟩
  · intro cfg now fs w f eTags ims res mf file hm hc hne
    unfold MainGo.serveFile
    rw [hm, hc]
    dsimp only
    rw [if_pos hne]

/-- C6 amended witness: the three clauses at concrete entries - a 200 entry
read at time 7 gets its sidecar mtime set to 7; the 404 entry of the
counterexample state stays untouched; the range variant leaves the `fsRange`
sidecar alone. -/
theorem claim_C6_amended_witness :
    ((MainGo.serveFile cfg0 7 fsRange RespWriter.empty "f" [] 0 "HIT").1.statMeta "f" =
      some ⟨⟨"s", 200, "t", 0, 0, "", 10⟩, 7⟩ ∧
     (MainGo.serveFile cfg0 7 fsRange RespWriter.empty "f" [] 0 "HIT").2.2.2 = none) ∧
    (MainGo.serveFile cfg0 7 fs404entry RespWriter.empty "k" [] 0 "HIT").1 = fs404entry ∧
    ((serveFile cfg0 7 fsRange RespWriter.empty "" "f" [] 0 "HIT").1.statMeta "f" =
      fsRange.statMeta "f" ∨
     (serveFile cfg0 7 fsRange RespWriter.empty "" "f" [] 0 "HIT").1.statMeta "f" = none) :=
  ⟨claim_C6_amended.1 cfg0 7 fsRange RespWriter.empty "f" [] 0 "HIT"
      ⟨⟨"s", 200, "t", 0, 0, "", 10⟩, 0⟩ ⟨[0, 1, 2, 3, 4, 5, 6, 7, 8, 9], 0⟩
      (by decide) (by decide) (by decide)
      (by rintro ⟨h1, -, -⟩; exact h1 rfl) (by decide),
   claim_C6_amended.2.1 cfg0 7 fs404entry RespWriter.empty "k" [] 0 "HIT"
      ⟨⟨"s", 404, "t", 0, 0, "", 2⟩, 0⟩ ⟨[5, 6], 0⟩ (by decide) (by decide) (by decide),
   claim_C6_amended.2.2 cfg0 7 fsRange RespWriter.empty "" "f" [] 0 "HIT" "f"⟩

/-! ## C8: janitor per-file errors -/

/-- C8 (code bug, evaluated): the clean pass over a directory with an
orphaned content file panics - the sidecar-stat error branch logs
`metaInfo.Name()` on the nil `FileInfo` returned by the failed `os.Stat`,
a nil-pointer dereference reached before the orphan-removal lines, and an
unrecovered panic in the janitor goroutine terminates the process. -/
theorem claim_C8 :
    V2.cleanCache ⟨10000, 1000000000, false⟩ 5 (fun _ => false) fsOrphan =
      .error .nilDeref ∧
    fsOrphan.statContent "a" = some ⟨[1], 0⟩ ∧ fsOrphan.statMeta "a" = none :=
  ⟨by decide, by decide, by decide⟩

/-! ## C9: the scored eviction walk -/

set_option maxRecDepth 8000 in
theorem C9_example_check :
    (V3.survey cfgC9 4194304 (fun _ => false) fsC9.content fsC9 0 []).2.2 =
      [⟨"a", 1, 10, 2097152, 1/1048576, 5⟩, ⟨"b", 1, 5, 1048576, 1/1048576, 5⟩,
       ⟨"c", 1, 20, 4194304, 1/1048576, 5⟩] ∧
    V3.cleanCache cfgC9 4194304 (fun _ => false) fsC9 = fsC9after := by
  have ha : ¬(['.', 'm', 'e', 't', 'a'] <:+ ['a']) := by decide
  have hb : ¬(['.', 'm', 'e', 't', 'a'] <:+ ['b']) := by decide
  have hc : ¬(['.', 'm', 'e', 't', 'a'] <:+ ['c']) := by decide
  constructor
  · norm_num [V3.survey, cfgC9, fsC9, recC9, FS.statMeta, lookupF, ha, hb, hc]
  · norm_num [V3.cleanCache, V3.survey, V3.evictWalk, List.insertionSort, List.orderedInsert,
      cfgC9, fsC9, recC9, fsC9after, FS.statMeta, FS.removeContent, FS.removeMeta,
      lookupF, eraseF, ha, hb, hc]
    decide

/-- Megabytes of one entry are nonnegative when its byte size is. -/
theorem mbNonneg (f : V3.JEntry) (h : 0 ≤ f.sizeBytes) :
    (0 : Rat) ≤ (f.sizeBytes : Rat) / 1024 / 1024 := by
  have h1 : (0:Rat) ≤ (f.sizeBytes : Rat) := by exact_mod_cast h
  exact div_nonneg (div_nonneg h1 (by norm_num)) (by norm_num)

/-- Once the running totals have crossed a budget, the walk (not in dry-run)
removes every remaining entry. -/
theorem evictWalk_crossed (cfg : V3.CleanCfg) (hdry : cfg.dryRun = false) :
    ∀ (files : List V3.JEntry) (fs : FS) (tc : Int) (ts : Rat),
      (∀ f ∈ files, 0 ≤ f.sizeBytes) →
      (cfg.maxCacheSize ≤ ts ∨ cfg.maxCacheFiles ≤ tc) →
      V3.evictWalk cfg files fs tc ts = removeRun fs files := by
  intro files
  induction files with
  | nil => intro fs tc ts _ _; rfl
  | cons f rest ih =>
    intro fs tc ts hsz hcross
    have hf : 0 ≤ f.sizeBytes := hsz f (by simp)
    have hcross' : cfg.maxCacheSize ≤ ts + (f.sizeBytes : Rat) / 1024 / 1024 ∨
        cfg.maxCacheFiles ≤ tc + 1 := by
      rcases hcross with h | h
      · left; have := mbNonneg f hf; linarith
      · right; omega
    have hkeep : ¬(ts + (f.sizeBytes : Rat) / 1024 / 1024 < cfg.maxCacheSize ∧
        tc + 1 < cfg.maxCacheFiles) := by
      rcases hcross' with h | h
      · rintro ⟨h1, -⟩; linarith
      · rintro ⟨-, h2⟩; omega
    unfold V3.evictWalk
    dsimp only
    rw [if_neg hkeep]
    rw [hdry]
    simp only [Bool.false_eq_true, if_false]
    exact ih _ _ _ (fun g hg => hsz g (by simp [hg])) hcross'

/-- When the scan totals stay inside both budgets, the clean pass performs no
scored eviction: the result is exactly the post-scan state. -/
theorem cleanCache_within_budget (cfg : V3.CleanCfg) (now : Rat) (ie : String → Bool)
    (fs : FS) (hfiles : 0 ≤ cfg.maxCacheFiles)
    (hsize : (V3.survey cfg now ie fs.content fs 0 []).2.1 ≤ cfg.maxCacheSize) :
    V3.cleanCache cfg now ie fs = (V3.survey cfg now ie fs.content fs 0 []).1 := by
  unfold V3.cleanCache
  rcases hs : V3.survey cfg now ie fs.content fs 0 [] with ⟨fs1, totalSize, files⟩
  rw [hs] at hsize
  dsimp only
  have hguard : ¬((0:Int) > cfg.maxCacheFiles ∨ totalSize > cfg.maxCacheSize) := by
    rintro (h | h)
    · omega
    · simp only [] at hsize
      linarith
  rw [if_neg hguard]

/-- Every entry the scan emits carries `score = size * age * used` with
`size` the megabyte size of the content file. -/
theorem survey_score_formula (cfg : V3.CleanCfg) (now : Rat) (ie : String → Bool) :
    ∀ (entries : List (String × ContentFile)) (fs : FS) (ts : Rat) (acc : List V3.JEntry),
      (∀ e ∈ acc, e.score = e.size * e.age * e.used ∧
        e.size = (e.sizeBytes : Rat) / 1024 / 1024) →
      ∀ e ∈ (V3.survey cfg now ie entries fs ts acc).2.2,
        e.score = e.size * e.age * e.used ∧
        e.size = (e.sizeBytes : Rat) / 1024 / 1024 := by
  intro entries
  induction entries with
  | nil =>
    intro fs ts acc hacc e he
    exact hacc e (by simpa [V3.survey] using he)
  | cons p rest ih =>
    intro fs ts acc hacc e he
    obtain ⟨name, info⟩ := p
    unfold V3.survey at he
    dsimp only at he
    split at he
    · exact ih _ _ _ hacc e he
    · split at he
      · exact ih _ _ _ hacc e he
      · split at he
        · exact ih _ _ _ hacc e he
        · split at he
          · exact ih _ _ _ hacc e he
          · refine ih _ _ _ ?_ e he
            intro g hg
            rcases List.mem_cons.mp hg with hg | hg
            · subst hg
              constructor
              · rfl
              · push_cast
                rfl
            · exact hacc g hg

/-- The list the eviction walk traverses is sorted ascending by score. -/
theorem sortFiles_sorted (files : List V3.JEntry) :
    List.Sorted (fun a b : V3.JEntry => a.score ≤ b.score)
      (List.insertionSort (fun a b => a.score ≤ b.score) files) := by
  haveI : IsTotal V3.JEntry (fun a b => a.score ≤ b.score) := ⟨fun a b => le_total _ _⟩
  haveI : IsTrans V3.JEntry (fun a b => a.score ≤ b.score) :=
    ⟨fun a b c h1 h2 => le_trans h1 h2⟩
  exact List.sorted_insertionSort _ _

/-- The walk deletes exactly a suffix of the sorted list: the kept prefix is
the longest one whose running megabyte total and running count stay under
both budgets, and every entry from the crossing point on is removed. -/
theorem evictWalk_suffix (cfg : V3.CleanCfg) (hdry : cfg.dryRun = false) :
    ∀ (files : List V3.JEntry) (fs : FS) (tc : Int) (ts : Rat),
      (∀ f ∈ files, 0 ≤ f.sizeBytes) →
      ∃ k ≤ files.length,
        V3.evictWalk cfg files fs tc ts = removeRun fs (files.drop k) ∧
        (∀ i < k, ts + mbSum (files.take (i + 1)) < cfg.maxCacheSize ∧
          tc + (i : Int) + 1 < cfg.maxCacheFiles) ∧
        (k < files.length →
          ¬(ts + mbSum (files.take (k + 1)) < cfg.maxCacheSize ∧
            tc + (k : Int) + 1 < cfg.maxCacheFiles)) := by
  intro files
  induction files with
  | nil =>
    intro fs tc ts _
    exact ⟨0, Nat.le_refl 0, rfl, fun i hi => absurd hi (by omega),
      fun h => absurd h (by simp)⟩
  | cons f rest ih =>
    intro fs tc ts hsz
    have hmb : mbSum ((f :: rest).take 1) = (f.sizeBytes : Rat) / 1024 / 1024 := by
      simp [mbSum]
    by_cases hkeep : ts + (f.sizeBytes : Rat) / 1024 / 1024 < cfg.maxCacheSize ∧
        tc + 1 < cfg.maxCacheFiles
    · obtain ⟨k, hk, heq, hpre, hcross⟩ :=
        ih fs (tc + 1) (ts + (f.sizeBytes : Rat) / 1024 / 1024)
          (fun g hg => hsz g (by simp [hg]))
      have hstep : V3.evictWalk cfg (f :: rest) fs tc ts =
          V3.evictWalk cfg rest fs (tc + 1) (ts + (f.sizeBytes : Rat) / 1024 / 1024) := by
        conv_lhs => unfold V3.evictWalk
        dsimp only
        rw [if_pos hkeep]
      refine ⟨k + 1, by simpa using Nat.succ_le_succ hk, ?_, ?_, ?_⟩
      · rw [hstep, heq]
        rfl
      · intro i hi
        cases i with
        | zero => simpa [mbSum] using hkeep
        | succ j =>
          have hj := hpre j (by omega)
          have htake : mbSum ((f :: rest).take (j + 1 + 1)) =
              (f.sizeBytes : Rat) / 1024 / 1024 + mbSum (rest.take (j + 1)) := by
            simp [mbSum]
          constructor
          · rw [htake]
            linarith [hj.1]
          · have := hj.2
            push_cast
            push_cast at this
            omega
      · intro hlen
        have hc := hcross (by simp only [List.length_cons] at hlen; omega)
        rintro ⟨h1, h2⟩
        apply hc
        have htake : mbSum ((f :: rest).take (k + 1 + 1)) =
            (f.sizeBytes : Rat) / 1024 / 1024 + mbSum (rest.take (k + 1)) := by
          simp [mbSum]
        constructor
        · rw [htake] at h1
          linarith
        · push_cast at h2
          omega
    · have hstep : V3.evictWalk cfg (f :: rest) fs tc ts =
          V3.evictWalk cfg rest ((fs.removeContent f.name).removeMeta f.name) (tc + 1)
            (ts + (f.sizeBytes : Rat) / 1024 / 1024) := by
        conv_lhs => unfold V3.evictWalk
        dsimp only
        rw [if_neg hkeep, hdry]
        simp only [Bool.false_eq_true, if_false]
      have hcross' : cfg.maxCacheSize ≤ ts + (f.sizeBytes : Rat) / 1024 / 1024 ∨
          cfg.maxCacheFiles ≤ tc + 1 := by
        by_contra hcon
        push_neg at hcon
        exact hkeep ⟨hcon.1, hcon.2⟩
      have hall := evictWalk_crossed cfg hdry rest
        ((fs.removeContent f.name).removeMeta f.name) (tc + 1)
        (ts + (f.sizeBytes : Rat) / 1024 / 1024)
        (fun g hg => hsz g (by simp [hg])) hcross'
      refine ⟨0, by omega, ?_, fun i hi => absurd hi (by omega), ?_⟩
      · rw [hstep, hall]
        rfl
      · intro _
        simpa [mbSum] using hkeep

/-- C9: the clean pass (1) scores every scanned entry as
`size_MB * age_hours * used_hours`, (2) walks those entries sorted ascending
by that score, (3) deletes nothing from them when the totals stay inside both
budgets, (4) when walking, keeps the longest prefix whose running size and
count stay under the budgets and deletes every entry from the crossing point
on, and (5) on the concrete [10, 5, 20]-scored example with a budget forcing
one eviction, removes exactly the entry scoring 20. -/
theorem claim_C9 :
    (∀ (cfg : V3.CleanCfg) (now : Rat) (ie : String → Bool)
      (entries : List (String × ContentFile)) (fs : FS) (ts : Rat),
      ∀ e ∈ (V3.survey cfg now ie entries fs ts []).2.2,
        e.score = e.size * e.age * e.used ∧
        e.size = (e.sizeBytes : Rat) / 1024 / 1024) ∧
    (∀ files : List V3.JEntry,
      List.Sorted (fun a b : V3.JEntry => a.score ≤ b.score)
        (List.insertionSort (fun a b => a.score ≤ b.score) files)) ∧
    (∀ (cfg : V3.CleanCfg) (now : Rat) (ie : String → Bool) (fs : FS),
      0 ≤ cfg.maxCacheFiles →
      (V3.survey cfg now ie fs.content fs 0 []).2.1 ≤ cfg.maxCacheSize →
      V3.cleanCache cfg now ie fs = (V3.survey cfg now ie fs.content fs 0 []).1) ∧
    (∀ (cfg : V3.CleanCfg), cfg.dryRun = false →
      ∀ (files : List V3.JEntry) (fs : FS) (tc : Int) (ts : Rat),
      (∀ f ∈ files, 0 ≤ f.sizeBytes) →
      ∃ k ≤ files.length,
        V3.evictWalk cfg files fs tc ts = removeRun fs (files.drop k) ∧
        (∀ i < k, ts + mbSum (files.take (i + 1)) < cfg.maxCacheSize ∧
          tc + (i : Int) + 1 < cfg.maxCacheFiles) ∧
        (k < files.length →
          ¬(ts + mbSum (files.take (k + 1)) < cfg.maxCacheSize ∧
            tc + (k : Int) + 1 < cfg.maxCacheFiles))) ∧
    ((V3.survey cfgC9 4194304 (fun _ => false) fsC9.content fsC9 0 []).2.2 =
      [⟨"a", 1, 10, 2097152, 1/1048576, 5⟩, ⟨"b", 1, 5, 1048576, 1/1048576, 5⟩,
       ⟨"c", 1, 20, 4194304, 1/1048576, 5⟩] ∧
     V3.cleanCache cfgC9 4194304 (fun _ => false) fsC9 = fsC9after) :=
  ⟨fun cfg now ie entries fs ts =>
      survey_score_formula cfg now ie entries fs ts [] (fun e he => absurd he (by simp)),
   sortFiles_sorted,
   cleanCache_within_budget,
   evictWalk_suffix,
   C9_example_check⟩

/-- C9 witness: the hypothesis-carrying clauses applied at concrete inputs -
the score formula at the example scan's first entry, the within-budget
no-eviction on an empty cache, and the suffix shape of an empty walk. -/
theorem claim_C9_witness :
    ((⟨"a", 1, 10, 2097152, 1/1048576, 5⟩ : V3.JEntry).score =
      (⟨"a", 1, 10, 2097152, 1/1048576, 5⟩ : V3.JEntry).size *
      (⟨"a", 1, 10, 2097152, 1/1048576, 5⟩ : V3.JEntry).age *
      (⟨"a", 1, 10, 2097152, 1/1048576, 5⟩ : V3.JEntry).used ∧
     (⟨"a", 1, 10, 2097152, 1/1048576, 5⟩ : V3.JEntry).size =
      ((⟨"a", 1, 10, 2097152, 1/1048576, 5⟩ : V3.JEntry).sizeBytes : Rat) / 1024 / 1024) ∧
    (V3.cleanCache cfgBig 0 (fun _ => false) ⟨[], []⟩ =
      (V3.survey cfgBig 0 (fun _ => false) (⟨[], []⟩ : FS).content ⟨[], []⟩ 0 []).1) ∧
    (∃ k ≤ ([] : List V3.JEntry).length,
      V3.evictWalk cfgBig [] ⟨[], []⟩ 0 0 = removeRun ⟨[], []⟩ (([] : List V3.JEntry).drop k) ∧
      (∀ i < k, (0:Rat) + mbSum (([] : List V3.JEntry).take (i + 1)) < cfgBig.maxCacheSize ∧
        (0:Int) + (i : Int) + 1 < cfgBig.maxCacheFiles) ∧
      (k < ([] : List V3.JEntry).length →
        ¬((0:Rat) + mbSum (([] : List V3.JEntry).take (k + 1)) < cfgBig.maxCacheSize ∧
          (0:Int) + (k : Int) + 1 < cfgBig.maxCacheFiles))) :=
  ⟨claim_C9.1 cfgC9 4194304 (fun _ => false) fsC9.content fsC9 0
      ⟨"a", 1, 10, 2097152, 1/1048576, 5⟩
      (by rw [C9_example_check.1]; exact List.mem_cons_self _ _),
   claim_C9.2.2.1 cfgBig 0 (fun _ => false) ⟨[], []⟩ (by norm_num [cfgBig])
      (by norm_num [V3.survey, cfgBig]),
   claim_C9.2.2.2.1 cfgBig rfl [] ⟨[], []⟩ 0 0 (fun f hf => absurd hf (by simp))⟩

end Mediacache
